import Mathlib

/-
Verification of the GpuScan module (gpuscan.c, opencl_catalog.h) of pg_strom.

The development shallowly embeds the planner-side predicate classifier, the
OpenCL kernel code generator, the cost model, the executor entry points and
the plan-copy routine of src/gpuscan.c.  External collaborators that live in
other files of the repository (the expression code generator, the device type
catalog lookup and the attribute tracker) are modelled from the specification;
each such definition carries a doc comment saying so.
-/

/- Decimal rendering of a natural number, as produced by printf %u / %d for
   the non-negative values appearing in the generated source. -/

def digitCh : Nat → Char
  | 0 => '0'
  | 1 => '1'
  | 2 => '2'
  | 3 => '3'
  | 4 => '4'
  | 5 => '5'
  | 6 => '6'
  | 7 => '7'
  | 8 => '8'
  | _ => '9'

def natToChars (n : Nat) : List Char :=
  if _h : n < 10 then [digitCh n]
  else natToChars (n / 10) ++ [digitCh (n % 10)]
decreasing_by exact Nat.div_lt_self (by omega) (by omega)

/- Identifier characters of the generated OpenCL dialect. -/

def isIdentCh (c : Char) : Bool := c.isAlphanum || c == '_'

theorem digitCh_identCh (d : Nat) : isIdentCh (digitCh d) = true := by
  unfold digitCh
  split <;> decide

theorem natToChars_identCh (n : Nat) : ∀ c ∈ natToChars n, isIdentCh c = true := by
  induction n using Nat.strong_induction_on with
  | _ n ih =>
    rw [natToChars]
    split
    · intro c hc
      simp only [List.mem_singleton] at hc
      subst hc
      exact digitCh_identCh _
    · intro c hc
      rcases List.mem_append.mp hc with h | h
      · exact ih (n / 10) (Nat.div_lt_self (by omega) (by omega)) c h
      · simp only [List.mem_singleton] at h
        subst h
        exact digitCh_identCh _

theorem identCh_ne_newline {c : Char} (h : isIdentCh c = true) : c ≠ '\n' := by
  intro hc
  subst hc
  simp [isIdentCh] at h

theorem natToChars_no_newline (n : Nat) : '\n' ∉ natToChars n := by
  intro h
  exact identCh_ne_newline (natToChars_identCh n '\n' h) rfl

/- Logical scalar types.  The device side knows the six fixed-width types
   enumerated by the GPUCMD_CONREF_ / GPUCMD_VARREF_ opcodes of
   src/opencl_catalog.h; every other logical type has no device mapping. -/

inductive PGType
  | t_bool
  | t_int2
  | t_int4
  | t_int8
  | t_float4
  | t_float8
  | t_other (oid : Nat)
deriving DecidableEq

/- Device type descriptor: the device-side type name and the
   DEVTYPE_IS_VARLENA flag consumed by gpuscan_codegen_quals. -/

structure devtype_info where
  type_ident : List Char
  type_is_varlena : Bool
deriving DecidableEq

/-- Modelled from the spec: the type-catalog collaborator
pgstrom_devtype_lookup (spec section 6: lookup(logical_type) yields the
device type name and a variable-length flag, absence of a mapping triggers
host-only classification).  The mapped types are the six supported by the
opcode catalog of src/opencl_catalog.h; they are all fixed-width. -/
def pgstrom_devtype_lookup : PGType → Option devtype_info
  | .t_bool => some ⟨"bool".data, false⟩
  | .t_int2 => some ⟨"int2".data, false⟩
  | .t_int4 => some ⟨"int4".data, false⟩
  | .t_int8 => some ⟨"int8".data, false⟩
  | .t_float4 => some ⟨"float4".data, false⟩
  | .t_float8 => some ⟨"float8".data, false⟩
  | .t_other _ => none

/- Expression trees.  Spec section 3: a tagged variant of constant,
   parameter placeholder, column reference and operator/function
   application, each node carrying a logical scalar type. -/

inductive PgExpr
  | econst (consttype : PGType) (constvalue : Int)
  | eparam (paramtype : PGType) (paramid : Nat)
  | evar (vartype : PGType) (varattno : Nat)
  | efunc (opno : Nat) (rettype : PGType) (args : List PgExpr)

/- Structural equality for expression trees (the equal() of the host system,
   used for used-params and used-vars deduplication). -/

mutual

def PgExpr.beq : PgExpr → PgExpr → Bool
  | .econst t v, .econst t' v' => t == t' && v == v'
  | .eparam t p, .eparam t' p' => t == t' && p == p'
  | .evar t a, .evar t' a' => t == t' && a == a'
  | .efunc o t as, .efunc o' t' as' => o == o' && t == t' && PgExpr.beqList as as'
  | _, _ => false

def PgExpr.beqList : List PgExpr → List PgExpr → Bool
  | [], [] => true
  | a :: as, b :: bs => PgExpr.beq a b && PgExpr.beqList as bs
  | _, _ => false

end

mutual

theorem PgExpr.beq_iff : ∀ a b : PgExpr, PgExpr.beq a b = true ↔ a = b
  | .econst t v, .econst t' v' => by
      simp [PgExpr.beq]
  | .econst _ _, .eparam _ _ => by simp [PgExpr.beq]
  | .econst _ _, .evar _ _ => by simp [PgExpr.beq]
  | .econst _ _, .efunc _ _ _ => by simp [PgExpr.beq]
  | .eparam _ _, .econst _ _ => by simp [PgExpr.beq]
  | .eparam t p, .eparam t' p' => by simp [PgExpr.beq]
  | .eparam _ _, .evar _ _ => by simp [PgExpr.beq]
  | .eparam _ _, .efunc _ _ _ => by simp [PgExpr.beq]
  | .evar _ _, .econst _ _ => by simp [PgExpr.beq]
  | .evar _ _, .eparam _ _ => by simp [PgExpr.beq]
  | .evar t a, .evar t' a' => by simp [PgExpr.beq]
  | .evar _ _, .efunc _ _ _ => by simp [PgExpr.beq]
  | .efunc _ _ _, .econst _ _ => by simp [PgExpr.beq]
  | .efunc _ _ _, .eparam _ _ => by simp [PgExpr.beq]
  | .efunc _ _ _, .evar _ _ => by simp [PgExpr.beq]
  | .efunc o t as, .efunc o' t' as' => by
      have h := PgExpr.beqList_iff as as'
      simp [PgExpr.beq, h, and_assoc]

theorem PgExpr.beqList_iff : ∀ as bs : List PgExpr, PgExpr.beqList as bs = true ↔ as = bs
  | [], [] => by simp [PgExpr.beqList]
  | [], _ :: _ => by simp [PgExpr.beqList]
  | _ :: _, [] => by simp [PgExpr.beqList]
  | a :: as, b :: bs => by
      have h1 := PgExpr.beq_iff a b
      have h2 := PgExpr.beqList_iff as bs
      simp [PgExpr.beqList, h1, h2]

end

instance : DecidableEq PgExpr := fun a b => decidable_of_iff _ (PgExpr.beq_iff a b)

/- The logical type of a node (consttype / paramtype / vartype / the
   operator result type). -/

def pgexprType : PgExpr → PGType
  | .econst t _ => t
  | .eparam t _ => t
  | .evar t _ => t
  | .efunc _ t _ => t

mutual

/-- Modelled from the spec: the attribute tracker pull_varattnos (spec
section 4.1: walks an expression tree and returns the set of column
ordinals it reads; pure, never fails; the caller accumulates the result
into its own set by union). -/
def pull_varattnos : PgExpr → Finset Nat
  | .econst _ _ => ∅
  | .eparam _ _ => ∅
  | .evar _ a => {a}
  | .efunc _ _ args => pull_varattnos_list args

/-- Modelled from the spec: attribute collection over a list of argument
subtrees, unioning the per-subtree sets. -/
def pull_varattnos_list : List PgExpr → Finset Nat
  | [] => ∅
  | e :: rest => pull_varattnos e ∪ pull_varattnos_list rest

end

/- A single node together with the question whether it has a device-side
   mapping: its type must be in the device type catalog, and a function
   node additionally needs a device counterpart of its operator.  The
   operator catalog fcat is an external collaborator and is kept as an
   explicit argument throughout (it maps an operator number to the
   device-side function name). -/

def nodeMapped (fcat : Nat → Option (List Char)) : PgExpr → Bool
  | .econst t _ => (pgstrom_devtype_lookup t).isSome
  | .eparam t _ => (pgstrom_devtype_lookup t).isSome
  | .evar t _ => (pgstrom_devtype_lookup t).isSome
  | .efunc o t _ => (fcat o).isSome && (pgstrom_devtype_lookup t).isSome

mutual

def pgexprNodes : PgExpr → List PgExpr
  | .efunc o t args => .efunc o t args :: pgexprNodesList args
  | e => [e]

def pgexprNodesList : List PgExpr → List PgExpr
  | [] => []
  | e :: rest => pgexprNodes e ++ pgexprNodesList rest

end

mutual

/-- Modelled from the spec: the capability test
pgstrom_codegen_available_expression (spec section 4.2: a recursive check
that every operator, function and type appearing in the subtree has a known
device-side counterpart; it never raises an error). -/
def pgstrom_codegen_available_expression (fcat : Nat → Option (List Char)) : PgExpr → Bool
  | .econst t _ => (pgstrom_devtype_lookup t).isSome
  | .eparam t _ => (pgstrom_devtype_lookup t).isSome
  | .evar t _ => (pgstrom_devtype_lookup t).isSome
  | .efunc o t args =>
      (fcat o).isSome && (pgstrom_devtype_lookup t).isSome && available_list fcat args

/-- Modelled from the spec: the capability test on every element of an
argument list. -/
def available_list (fcat : Nat → Option (List Char)) : List PgExpr → Bool
  | [] => true
  | e :: rest => pgstrom_codegen_available_expression fcat e && available_list fcat rest

end

mutual

theorem available_iff_nodes (fcat : Nat → Option (List Char)) :
    ∀ e : PgExpr,
      (pgstrom_codegen_available_expression fcat e = true ↔
        ∀ n ∈ pgexprNodes e, nodeMapped fcat n = true)
  | .econst t v => by
      simp [pgstrom_codegen_available_expression, pgexprNodes, nodeMapped]
  | .eparam t p => by
      simp [pgstrom_codegen_available_expression, pgexprNodes, nodeMapped]
  | .evar t a => by
      simp [pgstrom_codegen_available_expression, pgexprNodes, nodeMapped]
  | .efunc o t args => by
      have h := available_list_iff_nodes fcat args
      simp only [pgstrom_codegen_available_expression, pgexprNodes, Bool.and_eq_true, h,
        List.mem_cons, nodeMapped]
      constructor
      · rintro ⟨⟨ho, ht⟩, hall⟩ n hn
        rcases hn with rfl | hn
        · simp [nodeMapped, ho, ht]
        · exact hall n hn
      · intro h2
        refine ⟨?_, fun n hn => h2 n (Or.inr hn)⟩
        have := h2 _ (Or.inl rfl)
        simpa [nodeMapped, Bool.and_eq_true] using this

theorem available_list_iff_nodes (fcat : Nat → Option (List Char)) :
    ∀ es : List PgExpr,
      (available_list fcat es = true ↔ ∀ n ∈ pgexprNodesList es, nodeMapped fcat n = true)
  | [] => by simp [available_list, pgexprNodesList]
  | e :: rest => by
      have h1 := available_iff_nodes fcat e
      have h2 := available_list_iff_nodes fcat rest
      simp only [available_list, Bool.and_eq_true, h1, h2, pgexprNodesList, List.mem_append]
      constructor
      · rintro ⟨ha, hb⟩ n hn
        rcases hn with hn | hn
        · exact ha n hn
        · exact hb n hn
      · intro h3
        exact ⟨fun n hn => h3 n (Or.inl hn), fun n hn => h3 n (Or.inr hn)⟩

end

/- The predicate classifier: the foreach loop of gpuscan_add_scan_path
   (gpuscan.c lines 174-188).  For each RestrictInfo clause, the capability
   test routes it to dev_quals (collecting its attributes into dev_attrs) or
   to host_quals (collecting into host_attrs); lappend appends at the end of
   the list. -/

def classify_go (fcat : Nat → Option (List Char)) :
    List PgExpr → List PgExpr → List PgExpr → Finset Nat → Finset Nat →
    List PgExpr × List PgExpr × Finset Nat × Finset Nat
  | [], dev_quals, host_quals, dev_attrs, host_attrs =>
      (dev_quals, host_quals, dev_attrs, host_attrs)
  | rinfo :: rest, dev_quals, host_quals, dev_attrs, host_attrs =>
      if pgstrom_codegen_available_expression fcat rinfo then
        classify_go fcat rest (dev_quals ++ [rinfo]) host_quals
          (dev_attrs ∪ pull_varattnos rinfo) host_attrs
      else
        classify_go fcat rest dev_quals (host_quals ++ [rinfo])
          dev_attrs (host_attrs ∪ pull_varattnos rinfo)

def gpuscan_classify (fcat : Nat → Option (List Char)) (baserestrictinfo : List PgExpr) :
    List PgExpr × List PgExpr × Finset Nat × Finset Nat :=
  classify_go fcat baserestrictinfo [] [] ∅ ∅

/- Union of the attribute sets of a list of clauses. -/

def attrsUnion : List PgExpr → Finset Nat
  | [] => ∅
  | e :: rest => pull_varattnos e ∪ attrsUnion rest

theorem classify_go_eq (fcat : Nat → Option (List Char)) :
    ∀ (rs dq hq : List PgExpr) (da ha : Finset Nat),
      classify_go fcat rs dq hq da ha =
        (dq ++ rs.filter (fun r => pgstrom_codegen_available_expression fcat r),
         hq ++ rs.filter (fun r => !(pgstrom_codegen_available_expression fcat r)),
         da ∪ attrsUnion (rs.filter (fun r => pgstrom_codegen_available_expression fcat r)),
         ha ∪ attrsUnion (rs.filter (fun r => !(pgstrom_codegen_available_expression fcat r))))
  | [], dq, hq, da, ha => by
      simp [classify_go, attrsUnion]
  | r :: rest, dq, hq, da, ha => by
      by_cases hr : pgstrom_codegen_available_expression fcat r = true
      · have ih := classify_go_eq fcat rest (dq ++ [r]) hq (da ∪ pull_varattnos r) ha
        simp only [classify_go, hr, if_true, ih, List.filter_cons, Bool.not_true]
        simp [hr, attrsUnion, List.append_assoc, Finset.union_assoc]
      · have hr' : pgstrom_codegen_available_expression fcat r = false := by
          simpa using hr
        have ih := classify_go_eq fcat rest dq (hq ++ [r]) da (ha ∪ pull_varattnos r)
        simp only [classify_go, hr', if_false, Bool.false_eq_true, ih, List.filter_cons,
          Bool.not_false]
        simp [hr', attrsUnion, List.append_assoc, Finset.union_assoc]

theorem gpuscan_classify_eq (fcat : Nat → Option (List Char)) (rs : List PgExpr) :
    gpuscan_classify fcat rs =
      (rs.filter (fun r => pgstrom_codegen_available_expression fcat r),
       rs.filter (fun r => !(pgstrom_codegen_available_expression fcat r)),
       attrsUnion (rs.filter (fun r => pgstrom_codegen_available_expression fcat r)),
       attrsUnion (rs.filter (fun r => !(pgstrom_codegen_available_expression fcat r)))) := by
  simp [gpuscan_classify, classify_go_eq fcat rs]

/-- C1: the classifier places each conjunct of the input predicate list in
exactly one of the device group and the host group: the two groups are the
order-preserving sublists selected by the capability test, their
concatenation is a permutation of the input (no conjunct dropped or
duplicated, multiset partition), and per-element multiplicities add up. -/
theorem gpuscan_classify_partition (fcat : Nat → Option (List Char))
    (baserestrictinfo : List PgExpr) :
    (gpuscan_classify fcat baserestrictinfo).1 =
        baserestrictinfo.filter (fun r => pgstrom_codegen_available_expression fcat r) ∧
    (gpuscan_classify fcat baserestrictinfo).2.1 =
        baserestrictinfo.filter (fun r => !(pgstrom_codegen_available_expression fcat r)) ∧
    ((gpuscan_classify fcat baserestrictinfo).1 ++
        (gpuscan_classify fcat baserestrictinfo).2.1).Perm baserestrictinfo ∧
    (gpuscan_classify fcat baserestrictinfo).1.Sublist baserestrictinfo ∧
    (gpuscan_classify fcat baserestrictinfo).2.1.Sublist baserestrictinfo ∧
    ∀ r : PgExpr,
      (gpuscan_classify fcat baserestrictinfo).1.count r +
        (gpuscan_classify fcat baserestrictinfo).2.1.count r =
          baserestrictinfo.count r := by
  rw [gpuscan_classify_eq]
  refine ⟨rfl, rfl, ?_, List.filter_sublist _, List.filter_sublist _, ?_⟩
  · exact List.filter_append_perm _ _
  · intro r
    have hp := (List.filter_append_perm
      (fun r => pgstrom_codegen_available_expression fcat r) baserestrictinfo).count_eq r
    simpa [List.count_append] using hp

theorem mem_attrsUnion_of_mem {r : PgExpr} {l : List PgExpr} (h : r ∈ l) :
    pull_varattnos r ⊆ attrsUnion l := by
  induction l with
  | nil => cases h
  | cons a rest ih =>
    rcases List.mem_cons.mp h with rfl | h'
    · exact fun x hx => by
        simp [attrsUnion, Finset.mem_union, hx]
    · exact fun x hx => by
        simp only [attrsUnion, Finset.mem_union]
        exact Or.inr (ih h' hx)

/-- C2: for every conjunct of the input list, if every node of its
expression tree has a device-side mapping then the conjunct is routed to the
device group and its referenced column ordinals are contained in dev_attrs;
otherwise it is routed to the host group and its ordinals are contained in
host_attrs.  (Classification is a total function: it returns on every
input and never raises an error.) -/
theorem gpuscan_classify_capability_routing (fcat : Nat → Option (List Char))
    (baserestrictinfo : List PgExpr) (rinfo : PgExpr)
    (hmem : rinfo ∈ baserestrictinfo) :
    ((∀ n ∈ pgexprNodes rinfo, nodeMapped fcat n = true) →
        rinfo ∈ (gpuscan_classify fcat baserestrictinfo).1 ∧
        pull_varattnos rinfo ⊆ (gpuscan_classify fcat baserestrictinfo).2.2.1) ∧
    ((¬ ∀ n ∈ pgexprNodes rinfo, nodeMapped fcat n = true) →
        rinfo ∈ (gpuscan_classify fcat baserestrictinfo).2.1 ∧
        pull_varattnos rinfo ⊆ (gpuscan_classify fcat baserestrictinfo).2.2.2) := by
  rw [gpuscan_classify_eq]
  constructor
  · intro hall
    have hav : pgstrom_codegen_available_expression fcat rinfo = true :=
      (available_iff_nodes fcat rinfo).mpr hall
    have hm : rinfo ∈ baserestrictinfo.filter
        (fun r => pgstrom_codegen_available_expression fcat r) :=
      List.mem_filter.mpr ⟨hmem, hav⟩
    exact ⟨hm, mem_attrsUnion_of_mem hm⟩
  · intro hnot
    have hav : pgstrom_codegen_available_expression fcat rinfo = false := by
      rcases Bool.eq_false_or_eq_true (pgstrom_codegen_available_expression fcat rinfo) with h | h
      · exact absurd ((available_iff_nodes fcat rinfo).mp h) hnot
      · exact h
    have hm : rinfo ∈ baserestrictinfo.filter
        (fun r => !(pgstrom_codegen_available_expression fcat r)) :=
      List.mem_filter.mpr ⟨hmem, by simp [hav]⟩
    exact ⟨hm, mem_attrsUnion_of_mem hm⟩

/- Code generation context (codegen_context of pg_strom): the ordered,
   deduplicated used-params and used-vars sequences filled in during
   expression lowering.  memset(&context, 0, ...) corresponds to the empty
   context. -/

structure codegen_context where
  used_params : List PgExpr
  used_vars : List PgExpr
deriving DecidableEq

def emptyContext : codegen_context := ⟨[], []⟩

/- Deduplicating insertion: the index of the first structurally equal entry
   if present, otherwise the entry is appended and receives the next dense
   0-based index. -/

def addToUsed (l : List PgExpr) (e : PgExpr) : List PgExpr × Nat :=
  match l.findIdx? (fun x => x == e) with
  | some i => (l, i)
  | none => (l ++ [e], l.length)

def argJoin : List (List Char) → List Char
  | [] => []
  | [c] => c
  | c :: rest => c ++ ",".data ++ argJoin rest

mutual

/-- Modelled from the spec: the recursive lowering step of
pgstrom_codegen_expression (spec section 4.4 step 1): constants and
parameter placeholders are emitted as KPARAM_n references and accumulated
into the used-params sequence, column references as KVAR_n references into
the used-vars sequence (indices assigned on first occurrence, deduplicated
by structural equality), operator applications as a call of the device
counterpart; a node with no device mapping yields none (fatal internal
error in the original). -/
def pgstrom_codegen_expr (fcat : Nat → Option (List Char)) :
    PgExpr → codegen_context → Option (List Char × codegen_context)
  | .econst t v, ctx =>
      match pgstrom_devtype_lookup t with
      | none => none
      | some _ =>
          let r := addToUsed ctx.used_params (.econst t v)
          some ("KPARAM_".data ++ natToChars r.2, { ctx with used_params := r.1 })
  | .eparam t p, ctx =>
      match pgstrom_devtype_lookup t with
      | none => none
      | some _ =>
          let r := addToUsed ctx.used_params (.eparam t p)
          some ("KPARAM_".data ++ natToChars r.2, { ctx with used_params := r.1 })
  | .evar t a, ctx =>
      match pgstrom_devtype_lookup t with
      | none => none
      | some _ =>
          let r := addToUsed ctx.used_vars (.evar t a)
          some ("KVAR_".data ++ natToChars r.2, { ctx with used_vars := r.1 })
  | .efunc o t args, ctx =>
      match fcat o, pgstrom_devtype_lookup t with
      | some fname, some _ =>
          match pgstrom_codegen_args fcat args ctx with
          | none => none
          | some (codes, ctx2) =>
              some ("pg_".data ++ fname ++ "(".data ++ argJoin codes ++ ")".data, ctx2)
      | _, _ => none

/-- Modelled from the spec: lowering of an argument list, threading the
context left to right. -/
def pgstrom_codegen_args (fcat : Nat → Option (List Char)) :
    List PgExpr → codegen_context → Option (List (List Char) × codegen_context)
  | [], ctx => some ([], ctx)
  | e :: rest, ctx =>
      match pgstrom_codegen_expr fcat e ctx with
      | none => none
      | some (c, ctx1) =>
          match pgstrom_codegen_args fcat rest ctx1 with
          | none => none
          | some (cs, ctx2) => some (c :: cs, ctx2)

end

/-- Modelled from the spec: AND-reduction of a conjunct list (spec section
4.4 step 1: the conjunction of the device group is lowered into a single
boolean-valued expression). -/
def pgstrom_codegen_conj (fcat : Nat → Option (List Char)) :
    List PgExpr → codegen_context → Option (List Char × codegen_context)
  | [], _ => none
  | [q], ctx => pgstrom_codegen_expr fcat q ctx
  | q :: r :: rest, ctx =>
      match pgstrom_codegen_expr fcat q ctx with
      | none => none
      | some (c1, ctx1) =>
          match pgstrom_codegen_conj fcat (r :: rest) ctx1 with
          | none => none
          | some (c2, ctx2) =>
              some ("pg_boolop_and(".data ++ c1 ++ ",".data ++ c2 ++ ")".data, ctx2)

/-- Modelled from the spec: pgstrom_codegen_expression applied by
gpuscan_codegen_quals to the whole device qualifier list, starting from the
zeroed context. -/
def pgstrom_codegen_expression (fcat : Nat → Option (List Char)) (exprs : List PgExpr) :
    Option (List Char × codegen_context) :=
  pgstrom_codegen_conj fcat exprs emptyContext

/- The defaulted device type descriptor of an entry, used to express the
   shape of the emitted macro definitions (under the invariants of a context
   produced by lowering, the lookup always succeeds and the default is never
   used). -/

def dtypeOf (e : PgExpr) : devtype_info :=
  (pgstrom_devtype_lookup (pgexprType e)).getD ⟨[], false⟩

def varattnoOf : PgExpr → Nat
  | .evar _ a => a
  | _ => 0

/- Text of the macro definition emitted for the used-params entry of index
   i (the Const and Param branches of gpuscan_codegen_quals emit the same
   format string). -/

def kparamLineChars (i : Nat) (ident : List Char) : List Char :=
  "#define KPARAM_".data ++ natToChars i ++ "\tpg_".data ++ ident ++
    "_param(kparams,".data ++ natToChars i ++ ")".data

/- Text of the macro definition emitted for the used-vars entry of index i;
   variable-length device types additionally thread the toast buffer. -/

def kvarLineChars (i : Nat) (d : devtype_info) : List Char :=
  if d.type_is_varlena then
    "#define KVAR_".data ++ natToChars i ++ "\tpg_".data ++ d.type_ident ++
      "_vref(kcs,toast,".data ++ natToChars i ++ ",get_global_id(0))".data
  else
    "#define KVAR_".data ++ natToChars i ++ "\tpg_".data ++ d.type_ident ++
      "_vref(kcs,".data ++ natToChars i ++ ",get_global_id(0))".data

/- The param/const definition block of gpuscan_codegen_quals (one line per
   used-params entry, dense 0-based indices); a used-params entry that is
   neither Const nor Param raises elog(ERROR ...), a type without device
   mapping trips Assert(dtype != NULL): both are modelled as error. -/

def kparamDefs (i : Nat) : List PgExpr → Except Unit (List Char)
  | [] => .ok []
  | e :: rest =>
      match e with
      | .econst t _ =>
          match pgstrom_devtype_lookup t with
          | none => .error ()
          | some d =>
              match kparamDefs (i + 1) rest with
              | .error u => .error u
              | .ok tl => .ok (kparamLineChars i d.type_ident ++ ['\n'] ++ tl)
      | .eparam t _ =>
          match pgstrom_devtype_lookup t with
          | none => .error ()
          | some d =>
              match kparamDefs (i + 1) rest with
              | .error u => .error u
              | .ok tl => .ok (kparamLineChars i d.type_ident ++ ['\n'] ++ tl)
      | _ => .error ()

/- The Var definition block (one line per used-vars entry); the original
   blindly casts each entry to Var, an entry of another tag or an unmapped
   type trips Assert(dtype != NULL): modelled as error. -/

def kvarDefs (i : Nat) : List PgExpr → Except Unit (List Char)
  | [] => .ok []
  | e :: rest =>
      match e with
      | .evar t _ =>
          match pgstrom_devtype_lookup t with
          | none => .error ()
          | some d =>
              match kvarDefs (i + 1) rest with
              | .error u => .error u
              | .ok tl => .ok (kvarLineChars i d ++ ['\n'] ++ tl)
      | _ => .error ()

/- The entries of the pg_used_vars array literal: the raw column ordinal
   (varattno) of each used-vars entry in assigned-index order, separated by
   a comma and a space except before the head. -/

def usedVarsEntries (isHead : Bool) : List PgExpr → Except Unit (List Char)
  | [] => .ok []
  | e :: rest =>
      match e with
      | .evar _t a =>
          match usedVarsEntries false rest with
          | .error u => .error u
          | .ok tl => .ok ((if isHead then [] else ", ".data) ++ natToChars a ++ tl)
      | _ => .error ()

def usedVarsArray (vars : List PgExpr) : Except Unit (List Char) :=
  match usedVarsEntries true vars with
  | .error u => .error u
  | .ok entries =>
      .ok ("\nstatic __constant cl_ushort pg_used_vars[]=\x7b".data ++ entries ++
        "\x7d;\n\n".data)

/- The three kernel entry points, emitted by a single append with the
   lowered boolean expression spliced into the column-store qualifier. -/

def gpuscanKernelsPre : List Char :=
  "__kernel void\n".data ++
  "gpuscan_qual_cs(__global kern_gpuscan *gpuscan,\n".data ++
  "                __global kern_parambuf *kparams,\n".data ++
  "                __global kern_column_store *kcs,\n".data ++
  "                __global kern_toastbuf *toast,\n".data ++
  "                __local void *local_workmem)\n".data ++
  "\x7b\n".data ++
  "  pg_bool_t   rc;\n".data ++
  "  cl_int      errcode;\n".data ++
  "\n".data ++
  "  gpuscan_local_init(local_workmem);\n".data ++
  "  if (get_global_id(0) < kcs->nrows)\n".data ++
  "    rc = ".data

def gpuscanKernelsPost : List Char :=
  ";\n".data ++
  "  else\n".data ++
  "    rc.isnull = CL_TRUE;\n".data ++
  "  kern_set_error(!rc.isnull && rc.value != 0\n".data ++
  "                 ? StromError_Success\n".data ++
  "                 : StromError_RowFiltered);\n".data ++
  "  gpuscan_writeback_result(gpuscan);\n".data ++
  "\x7d\n".data ++
  "\n".data ++
  "__kernel void\n".data ++
  "gpuscan_qual_rs_prep(__global kern_row_store *krs,\n".data ++
  "                     __global kern_column_store *kcs)\n".data ++
  "\x7b\n".data ++
  "  kern_row_to_column_prep(krs,kcs,\n".data ++
  "                          lengthof(used_vars),\n".data ++
  "                          used_vars);\n".data ++
  "\x7d\n".data ++
  "\n".data ++
  "__kernel void\n".data ++
  "gpuscan_qual_rs(__global kern_gpuscan *gpuscan,\n".data ++
  "                __global kern_parambuf *kparams,\n".data ++
  "                __global kern_row_store *krs,\n".data ++
  "                __global kern_column_store *kcs,\n".data ++
  "                __local void *local_workmem)\n".data ++
  "\x7b\n".data ++
  "  kern_row_to_column(krs,kcs,\n".data ++
  "                     lengthof(used_vars),\n".data ++
  "                     used_vars,\n".data ++
  "                     local_workmem);\n".data ++
  "  gpuscan_qual_cs(gpuscan,kparams,kcs,\n".data ++
  "                  (kern_toastbuf *)krs,\n".data ++
  "                  local_workmem);\n".data ++
  "\x7d\n".data

def gpuscanKernels (expr_code : List Char) : List Char :=
  gpuscanKernelsPre ++ expr_code ++ gpuscanKernelsPost

/- gpuscan_codegen_quals (gpuscan.c lines 224-361): zeroes the context,
   returns no source for an empty device qualifier list, otherwise lowers
   the qualifiers and emits the param/const macro block, the Var macro
   block, the pg_used_vars array literal and the three kernel entry points.
   The error value models the fatal elog / Assert paths. -/

def gpuscan_codegen_quals (fcat : Nat → Option (List Char)) (dev_quals : List PgExpr) :
    Except Unit (codegen_context × Option (List Char)) :=
  match dev_quals with
  | [] => .ok (emptyContext, none)
  | _ :: _ =>
      match pgstrom_codegen_expression fcat dev_quals with
      | none => .error ()
      | some (expr_code, ctx) =>
          match kparamDefs 0 ctx.used_params with
          | .error u => .error u
          | .ok pdefs =>
              match kvarDefs 0 ctx.used_vars with
              | .error u => .error u
              | .ok vdefs =>
                  match usedVarsArray ctx.used_vars with
                  | .error u => .error u
                  | .ok arr =>
                      .ok (ctx, some (pdefs ++ vdefs ++ arr ++ gpuscanKernels expr_code))

/-- C5: code generation is deterministic.  For structurally equal device
qualifier lists the generator produces identical results: byte-identical
kernel source text and identical used-params and used-vars sequences with
identical index assignments (the whole lowering result coincides). -/
theorem gpuscan_codegen_deterministic (fcat : Nat → Option (List Char))
    (dq1 dq2 : List PgExpr) (h : dq1 = dq2) :
    gpuscan_codegen_quals fcat dq1 = gpuscan_codegen_quals fcat dq2 ∧
    pgstrom_codegen_expression fcat dq1 = pgstrom_codegen_expression fcat dq2 := by
  subst h
  exact ⟨rfl, rfl⟩

/- Invariants of a lowering context: used-params entries are Const or Param
   nodes of device-mapped type, used-vars entries are Var nodes of
   device-mapped type. -/

def paramEntryOK : PgExpr → Prop
  | .econst t _ => (pgstrom_devtype_lookup t).isSome = true
  | .eparam t _ => (pgstrom_devtype_lookup t).isSome = true
  | _ => False

def varEntryOK : PgExpr → Prop
  | .evar t _ => (pgstrom_devtype_lookup t).isSome = true
  | _ => False

def ctxInv (ctx : codegen_context) : Prop :=
  (∀ e ∈ ctx.used_params, paramEntryOK e) ∧ (∀ e ∈ ctx.used_vars, varEntryOK e)

/- The operator catalog yields identifier names. -/

def FcatOK (fcat : Nat → Option (List Char)) : Prop :=
  ∀ o s, fcat o = some s → ∀ c ∈ s, isIdentCh c = true

/- Characters that can occur in a lowered expression string. -/

def okCh (c : Char) : Bool := isIdentCh c || c == '(' || c == ')' || c == ','

theorem okCh_ne_newline {c : Char} (h : okCh c = true) : c ≠ '\n' := by
  intro hc
  subst hc
  simp [okCh, isIdentCh] at h

theorem addToUsed_pres {P : PgExpr → Prop} {l : List PgExpr} {e : PgExpr}
    (hl : ∀ x ∈ l, P x) (he : P e) : ∀ x ∈ (addToUsed l e).1, P x := by
  unfold addToUsed
  cases h : l.findIdx? (fun x => x == e) with
  | none =>
      intro x hx
      rcases List.mem_append.mp hx with hx | hx
      · exact hl x hx
      · simp only [List.mem_singleton] at hx
        subst hx
        exact he
  | some i => exact hl

mutual

theorem codegen_expr_inv (fcat : Nat → Option (List Char)) :
    ∀ (e : PgExpr) (ctx : codegen_context) (out : List Char × codegen_context),
      pgstrom_codegen_expr fcat e ctx = some out → ctxInv ctx → ctxInv out.2
  | .econst t v, ctx, out => by
      intro h hctx
      simp only [pgstrom_codegen_expr] at h
      cases hd : pgstrom_devtype_lookup t with
      | none => rw [hd] at h; simp at h
      | some d =>
          rw [hd] at h
          simp only [Option.some.injEq] at h
          subst h
          refine ⟨addToUsed_pres hctx.1 ?_, hctx.2⟩
          simp [paramEntryOK, hd]
  | .eparam t p, ctx, out => by
      intro h hctx
      simp only [pgstrom_codegen_expr] at h
      cases hd : pgstrom_devtype_lookup t with
      | none => rw [hd] at h; simp at h
      | some d =>
          rw [hd] at h
          simp only [Option.some.injEq] at h
          subst h
          refine ⟨addToUsed_pres hctx.1 ?_, hctx.2⟩
          simp [paramEntryOK, hd]
  | .evar t a, ctx, out => by
      intro h hctx
      simp only [pgstrom_codegen_expr] at h
      cases hd : pgstrom_devtype_lookup t with
      | none => rw [hd] at h; simp at h
      | some d =>
          rw [hd] at h
          simp only [Option.some.injEq] at h
          subst h
          refine ⟨hctx.1, addToUsed_pres hctx.2 ?_⟩
          simp [varEntryOK, hd]
  | .efunc o t args, ctx, out => by
      intro h hctx
      simp only [pgstrom_codegen_expr] at h
      cases hf : fcat o with
      | none => rw [hf] at h; simp at h
      | some fname =>
          cases hd : pgstrom_devtype_lookup t with
          | none => rw [hf, hd] at h; simp at h
          | some d =>
              rw [hf, hd] at h
              cases ha : pgstrom_codegen_args fcat args ctx with
              | none => rw [ha] at h; simp at h
              | some r =>
                  rw [ha] at h
                  obtain ⟨codes, ctx2⟩ := r
                  simp only [Option.some.injEq] at h
                  subst h
                  exact codegen_args_inv fcat args ctx (codes, ctx2) ha hctx

theorem codegen_args_inv (fcat : Nat → Option (List Char)) :
    ∀ (es : List PgExpr) (ctx : codegen_context) (out : List (List Char) × codegen_context),
      pgstrom_codegen_args fcat es ctx = some out → ctxInv ctx → ctxInv out.2
  | [], ctx, out => by
      intro h hctx
      simp only [pgstrom_codegen_args, Option.some.injEq] at h
      subst h
      exact hctx
  | e :: rest, ctx, out => by
      intro h hctx
      simp only [pgstrom_codegen_args] at h
      cases h1 : pgstrom_codegen_expr fcat e ctx with
      | none => rw [h1] at h; simp at h
      | some r1 =>
          rw [h1] at h
          obtain ⟨c, ctx1⟩ := r1
          dsimp only at h
          cases h2 : pgstrom_codegen_args fcat rest ctx1 with
          | none => rw [h2] at h; simp at h
          | some r2 =>
              rw [h2] at h
              obtain ⟨cs, ctx2⟩ := r2
              simp only [Option.some.injEq] at h
              subst h
              exact codegen_args_inv fcat rest ctx1 (cs, ctx2) h2
                (codegen_expr_inv fcat e ctx (c, ctx1) h1 hctx)

end

theorem codegen_conj_inv (fcat : Nat → Option (List Char)) :
    ∀ (qs : List PgExpr) (ctx : codegen_context) (out : List Char × codegen_context),
      pgstrom_codegen_conj fcat qs ctx = some out → ctxInv ctx → ctxInv out.2
  | [], ctx, out => by
      intro h
      simp [pgstrom_codegen_conj] at h
  | [q], ctx, out => by
      intro h hctx
      simp only [pgstrom_codegen_conj] at h
      exact codegen_expr_inv fcat q ctx out h hctx
  | q :: r :: rest, ctx, out => by
      intro h hctx
      simp only [pgstrom_codegen_conj] at h
      cases h1 : pgstrom_codegen_expr fcat q ctx with
      | none => rw [h1] at h; simp at h
      | some r1 =>
          rw [h1] at h
          obtain ⟨c1, ctx1⟩ := r1
          dsimp only at h
          cases h2 : pgstrom_codegen_conj fcat (r :: rest) ctx1 with
          | none => rw [h2] at h; simp at h
          | some r2 =>
              rw [h2] at h
              obtain ⟨c2, ctx2⟩ := r2
              simp only [Option.some.injEq] at h
              subst h
              exact codegen_conj_inv fcat (r :: rest) ctx1 (c2, ctx2) h2
                (codegen_expr_inv fcat q ctx (c1, ctx1) h1 hctx)

mutual

theorem codegen_expr_some (fcat : Nat → Option (List Char)) :
    ∀ (e : PgExpr), pgstrom_codegen_available_expression fcat e = true →
      ∀ ctx, (pgstrom_codegen_expr fcat e ctx).isSome = true
  | .econst t v => by
      intro hav ctx
      simp only [pgstrom_codegen_available_expression, Option.isSome_iff_exists] at hav
      obtain ⟨d, hd⟩ := hav
      simp [pgstrom_codegen_expr, hd]
  | .eparam t p => by
      intro hav ctx
      simp only [pgstrom_codegen_available_expression, Option.isSome_iff_exists] at hav
      obtain ⟨d, hd⟩ := hav
      simp [pgstrom_codegen_expr, hd]
  | .evar t a => by
      intro hav ctx
      simp only [pgstrom_codegen_available_expression, Option.isSome_iff_exists] at hav
      obtain ⟨d, hd⟩ := hav
      simp [pgstrom_codegen_expr, hd]
  | .efunc o t args => by
      intro hav ctx
      simp only [pgstrom_codegen_available_expression, Bool.and_eq_true,
        Option.isSome_iff_exists] at hav
      obtain ⟨⟨⟨fname, hf⟩, ⟨d, hd⟩⟩, hargs⟩ := hav
      have ha := codegen_args_some fcat args hargs ctx
      rw [Option.isSome_iff_exists] at ha
      obtain ⟨⟨codes, ctx2⟩, ha⟩ := ha
      simp [pgstrom_codegen_expr, hf, hd, ha]

theorem codegen_args_some (fcat : Nat → Option (List Char)) :
    ∀ (es : List PgExpr), available_list fcat es = true →
      ∀ ctx, (pgstrom_codegen_args fcat es ctx).isSome = true
  | [] => by
      intro _ ctx
      simp [pgstrom_codegen_args]
  | e :: rest => by
      intro hav ctx
      simp only [available_list, Bool.and_eq_true] at hav
      have h1 := codegen_expr_some fcat e hav.1 ctx
      rw [Option.isSome_iff_exists] at h1
      obtain ⟨⟨c, ctx1⟩, h1⟩ := h1
      have h2 := codegen_args_some fcat rest hav.2 ctx1
      rw [Option.isSome_iff_exists] at h2
      obtain ⟨⟨cs, ctx2⟩, h2⟩ := h2
      simp [pgstrom_codegen_args, h1, h2]

end

theorem codegen_conj_some (fcat : Nat → Option (List Char)) :
    ∀ (qs : List PgExpr), qs ≠ [] →
      (∀ q ∈ qs, pgstrom_codegen_available_expression fcat q = true) →
      ∀ ctx, (pgstrom_codegen_conj fcat qs ctx).isSome = true
  | [] => by intro h; exact absurd rfl h
  | [q] => by
      intro _ hav ctx
      have h := codegen_expr_some fcat q (hav q (by simp)) ctx
      simpa [pgstrom_codegen_conj] using h
  | q :: r :: rest => by
      intro _ hav ctx
      have h1 := codegen_expr_some fcat q (hav q (by simp)) ctx
      rw [Option.isSome_iff_exists] at h1
      obtain ⟨⟨c1, ctx1⟩, h1⟩ := h1
      have h2 := codegen_conj_some fcat (r :: rest) (by simp)
        (fun x hx => hav x (List.mem_cons_of_mem q hx)) ctx1
      rw [Option.isSome_iff_exists] at h2
      obtain ⟨⟨c2, ctx2⟩, h2⟩ := h2
      simp [pgstrom_codegen_conj, h1, h2]

theorem okCh_of_mem_lit {l : List Char} (hl : l.all okCh = true) {ch : Char}
    (h : ch ∈ l) : okCh ch = true :=
  List.all_eq_true.mp hl ch h

theorem argJoin_chars :
    ∀ (codes : List (List Char)),
      (∀ code ∈ codes, ∀ ch ∈ code, okCh ch = true) →
      ∀ ch ∈ argJoin codes, okCh ch = true
  | [] => by simp [argJoin]
  | [c] => by
      intro h ch hch
      exact h c (by simp) ch (by simpa [argJoin] using hch)
  | c :: c2 :: rest => by
      intro h ch hch
      simp only [argJoin, List.append_assoc, List.mem_append] at hch
      rcases hch with hch | hch | hch
      · exact h c (by simp) ch hch
      · have : ch = ',' := by simpa using hch
        subst this
        decide
      · exact argJoin_chars (c2 :: rest) (fun code hcode => h code (List.mem_cons_of_mem c hcode))
          ch hch

mutual

theorem codegen_expr_chars (fcat : Nat → Option (List Char)) (hf : FcatOK fcat) :
    ∀ (e : PgExpr) (ctx : codegen_context) (out : List Char × codegen_context),
      pgstrom_codegen_expr fcat e ctx = some out → ∀ ch ∈ out.1, okCh ch = true
  | .econst t v, ctx, out => by
      intro h ch hch
      simp only [pgstrom_codegen_expr] at h
      cases hd : pgstrom_devtype_lookup t with
      | none => rw [hd] at h; simp at h
      | some d =>
          rw [hd] at h
          simp only [Option.some.injEq] at h
          subst h
          simp only [List.mem_append] at hch
          rcases hch with hch | hch
          · exact okCh_of_mem_lit (by decide) hch
          · have := natToChars_identCh _ ch hch
            simp [okCh, this]
  | .eparam t p, ctx, out => by
      intro h ch hch
      simp only [pgstrom_codegen_expr] at h
      cases hd : pgstrom_devtype_lookup t with
      | none => rw [hd] at h; simp at h
      | some d =>
          rw [hd] at h
          simp only [Option.some.injEq] at h
          subst h
          simp only [List.mem_append] at hch
          rcases hch with hch | hch
          · exact okCh_of_mem_lit (by decide) hch
          · have := natToChars_identCh _ ch hch
            simp [okCh, this]
  | .evar t a, ctx, out => by
      intro h ch hch
      simp only [pgstrom_codegen_expr] at h
      cases hd : pgstrom_devtype_lookup t with
      | none => rw [hd] at h; simp at h
      | some d =>
          rw [hd] at h
          simp only [Option.some.injEq] at h
          subst h
          simp only [List.mem_append] at hch
          rcases hch with hch | hch
          · exact okCh_of_mem_lit (by decide) hch
          · have := natToChars_identCh _ ch hch
            simp [okCh, this]
  | .efunc o t args, ctx, out => by
      intro h ch hch
      simp only [pgstrom_codegen_expr] at h
      cases hfo : fcat o with
      | none => rw [hfo] at h; simp at h
      | some fname =>
          cases hd : pgstrom_devtype_lookup t with
          | none => rw [hfo, hd] at h; simp at h
          | some d =>
              rw [hfo, hd] at h
              cases ha : pgstrom_codegen_args fcat args ctx with
              | none => rw [ha] at h; simp at h
              | some r =>
                  rw [ha] at h
                  obtain ⟨codes, ctx2⟩ := r
                  simp only [Option.some.injEq] at h
                  subst h
                  simp only [List.append_assoc, List.mem_append] at hch
                  rcases hch with hch | hch | hch | hch | hch
                  · exact okCh_of_mem_lit (by decide) hch
                  · have := hf o fname hfo ch hch
                    simp [okCh, this]
                  · have : ch = '(' := by simpa using hch
                    subst this; decide
                  · exact argJoin_chars codes
                      (codegen_args_chars fcat hf args ctx (codes, ctx2) ha) ch hch
                  · have : ch = ')' := by simpa using hch
                    subst this; decide

theorem codegen_args_chars (fcat : Nat → Option (List Char)) (hf : FcatOK fcat) :
    ∀ (es : List PgExpr) (ctx : codegen_context) (out : List (List Char) × codegen_context),
      pgstrom_codegen_args fcat es ctx = some out →
      ∀ code ∈ out.1, ∀ ch ∈ code, okCh ch = true
  | [], ctx, out => by
      intro h code hcode
      simp only [pgstrom_codegen_args, Option.some.injEq] at h
      subst h
      simp at hcode
  | e :: rest, ctx, out => by
      intro h code hcode
      simp only [pgstrom_codegen_args] at h
      cases h1 : pgstrom_codegen_expr fcat e ctx with
      | none => rw [h1] at h; simp at h
      | some r1 =>
          rw [h1] at h
          obtain ⟨c, ctx1⟩ := r1
          dsimp only at h
          cases h2 : pgstrom_codegen_args fcat rest ctx1 with
          | none => rw [h2] at h; simp at h
          | some r2 =>
              rw [h2] at h
              obtain ⟨cs, ctx2⟩ := r2
              simp only [Option.some.injEq] at h
              subst h
              simp only [List.mem_cons] at hcode
              rcases hcode with rfl | hcode
              · exact codegen_expr_chars fcat hf e ctx (code, ctx1) h1
              · exact codegen_args_chars fcat hf rest ctx1 (cs, ctx2) h2 code hcode

end

theorem codegen_conj_chars (fcat : Nat → Option (List Char)) (hf : FcatOK fcat) :
    ∀ (qs : List PgExpr) (ctx : codegen_context) (out : List Char × codegen_context),
      pgstrom_codegen_conj fcat qs ctx = some out → ∀ ch ∈ out.1, okCh ch = true
  | [], ctx, out => by
      intro h
      simp [pgstrom_codegen_conj] at h
  | [q], ctx, out => by
      intro h
      simp only [pgstrom_codegen_conj] at h
      exact codegen_expr_chars fcat hf q ctx out h
  | q :: r :: rest, ctx, out => by
      intro h ch hch
      simp only [pgstrom_codegen_conj] at h
      cases h1 : pgstrom_codegen_expr fcat q ctx with
      | none => rw [h1] at h; simp at h
      | some r1 =>
          rw [h1] at h
          obtain ⟨c1, ctx1⟩ := r1
          dsimp only at h
          cases h2 : pgstrom_codegen_conj fcat (r :: rest) ctx1 with
          | none => rw [h2] at h; simp at h
          | some r2 =>
              rw [h2] at h
              obtain ⟨c2, ctx2⟩ := r2
              simp only [Option.some.injEq] at h
              subst h
              simp only [List.append_assoc, List.mem_append] at hch
              rcases hch with hch | hch | hch | hch | hch
              · exact okCh_of_mem_lit (by decide) hch
              · exact codegen_expr_chars fcat hf q ctx (c1, ctx1) h1 ch hch
              · have : ch = ',' := by simpa using hch
                subst this; decide
              · exact codegen_conj_chars fcat hf (r :: rest) ctx1 (c2, ctx2) h2 ch hch
              · have : ch = ')' := by simpa using hch
                subst this; decide

theorem codegen_conj_no_newline (fcat : Nat → Option (List Char)) (hf : FcatOK fcat)
    {qs : List PgExpr} {ctx : codegen_context} {c : List Char} {ctx2 : codegen_context}
    (h : pgstrom_codegen_conj fcat qs ctx = some (c, ctx2)) : '\n' ∉ c := by
  intro hmem
  exact okCh_ne_newline (codegen_conj_chars fcat hf qs ctx (c, ctx2) h '\n' hmem) rfl

/- Line structure of the generated source: lineJoin turns a list of
   newline-free line contents into flat text, linesOf splits flat text at
   newlines. -/

def lineJoin : List (List Char) → List Char
  | [] => []
  | l :: rest => l ++ '\n' :: lineJoin rest

theorem lineJoin_append (A B : List (List Char)) :
    lineJoin (A ++ B) = lineJoin A ++ lineJoin B := by
  induction A with
  | nil => simp [lineJoin]
  | cons a rest ih => simp [lineJoin, ih]

def linesOf : List Char → List (List Char)
  | [] => [[]]
  | c :: rest =>
      if c = '\n' then [] :: linesOf rest
      else
        match linesOf rest with
        | l :: ls => (c :: l) :: ls
        | [] => [[c]]

theorem linesOf_cons_newline (b : List Char) : linesOf ('\n' :: b) = [] :: linesOf b := by
  simp [linesOf]

theorem linesOf_append_newline :
    ∀ (a : List Char), '\n' ∉ a → ∀ b, linesOf (a ++ '\n' :: b) = a :: linesOf b
  | [], _ => by
      intro b
      simp [linesOf]
  | c :: a, h => by
      intro b
      have hc : ¬ (c = '\n') := fun hc => h (hc ▸ List.mem_cons_self c a)
      have ih := linesOf_append_newline a (fun hm => h (List.mem_cons_of_mem c hm)) b
      simp only [List.cons_append, linesOf, if_neg hc, List.append_eq, ih]

theorem linesOf_lineJoin :
    ∀ (L : List (List Char)), (∀ l ∈ L, '\n' ∉ l) → linesOf (lineJoin L) = L ++ [[]]
  | [] => by
      intro _
      simp [lineJoin, linesOf]
  | l :: rest => by
      intro h
      have ih := linesOf_lineJoin rest (fun x hx => h x (List.mem_cons_of_mem l hx))
      simp only [lineJoin, linesOf_append_newline l (h l (List.mem_cons_self l rest)), ih,
        List.cons_append]

/- The expected line contents of the generated source, in order: one macro
   line per used-params entry, one per used-vars entry, a blank line, the
   pg_used_vars array literal, a blank line, and the kernel text lines. -/

def paramLinesFrom (i : Nat) : List PgExpr → List (List Char)
  | [] => []
  | e :: rest => kparamLineChars i (dtypeOf e).type_ident :: paramLinesFrom (i + 1) rest

def varLinesFrom (i : Nat) : List PgExpr → List (List Char)
  | [] => []
  | e :: rest => kvarLineChars i (dtypeOf e) :: varLinesFrom (i + 1) rest

def ordinalsChunk (isHead : Bool) : List PgExpr → List Char
  | [] => []
  | e :: rest =>
      (if isHead then [] else ", ".data) ++ natToChars (varattnoOf e) ++ ordinalsChunk false rest

def arrLineSpec (vars : List PgExpr) : List Char :=
  "static __constant cl_ushort pg_used_vars[]=\x7b".data ++ ordinalsChunk true vars ++
    "\x7d;".data

def rcLineChars (expr_code : List Char) : List Char :=
  "    rc = ".data ++ expr_code ++ ";".data

def kernelLinesPre : List (List Char) :=
  ["__kernel void".data,
   "gpuscan_qual_cs(__global kern_gpuscan *gpuscan,".data,
   "                __global kern_parambuf *kparams,".data,
   "                __global kern_column_store *kcs,".data,
   "                __global kern_toastbuf *toast,".data,
   "                __local void *local_workmem)".data,
   "\x7b".data,
   "  pg_bool_t   rc;".data,
   "  cl_int      errcode;".data,
   "".data,
   "  gpuscan_local_init(local_workmem);".data,
   "  if (get_global_id(0) < kcs->nrows)".data]

def kernelLinesPost : List (List Char) :=
  ["  else".data,
   "    rc.isnull = CL_TRUE;".data,
   "  kern_set_error(!rc.isnull && rc.value != 0".data,
   "                 ? StromError_Success".data,
   "                 : StromError_RowFiltered);".data,
   "  gpuscan_writeback_result(gpuscan);".data,
   "\x7d".data,
   "".data,
   "__kernel void".data,
   "gpuscan_qual_rs_prep(__global kern_row_store *krs,".data,
   "                     __global kern_column_store *kcs)".data,
   "\x7b".data,
   "  kern_row_to_column_prep(krs,kcs,".data,
   "                          lengthof(used_vars),".data,
   "                          used_vars);".data,
   "\x7d".data,
   "".data,
   "__kernel void".data,
   "gpuscan_qual_rs(__global kern_gpuscan *gpuscan,".data,
   "                __global kern_parambuf *kparams,".data,
   "                __global kern_row_store *krs,".data,
   "                __global kern_column_store *kcs,".data,
   "                __local void *local_workmem)".data,
   "\x7b".data,
   "  kern_row_to_column(krs,kcs,".data,
   "                     lengthof(used_vars),".data,
   "                     used_vars,".data,
   "                     local_workmem);".data,
   "  gpuscan_qual_cs(gpuscan,kparams,kcs,".data,
   "                  (kern_toastbuf *)krs,".data,
   "                  local_workmem);".data,
   "\x7d".data]

def kernelLines (expr_code : List Char) : List (List Char) :=
  kernelLinesPre ++ rcLineChars expr_code :: kernelLinesPost

set_option maxRecDepth 20000 in
theorem gpuscanKernelsPre_eq :
    gpuscanKernelsPre = lineJoin kernelLinesPre ++ "    rc = ".data := by decide

set_option maxRecDepth 40000 in
theorem gpuscanKernelsPost_eq :
    gpuscanKernelsPost = ';' :: '\n' :: lineJoin kernelLinesPost := by decide

theorem gpuscanKernels_lineJoin (expr_code : List Char) :
    gpuscanKernels expr_code = lineJoin (kernelLines expr_code) := by
  have hsemi : ";".data = [';'] := rfl
  rw [kernelLines, lineJoin_append,
    show lineJoin (rcLineChars expr_code :: kernelLinesPost) =
      rcLineChars expr_code ++ '\n' :: lineJoin kernelLinesPost from rfl,
    gpuscanKernels, gpuscanKernelsPre_eq, gpuscanKernelsPost_eq]
  generalize lineJoin kernelLinesPre = A
  generalize lineJoin kernelLinesPost = B
  simp only [rcLineChars, hsemi, List.append_assoc, List.cons_append,
    List.singleton_append, List.nil_append]

/- Success normal forms of the emission loops, under the invariants of a
   lowering context. -/

theorem kparamDefs_ok :
    ∀ (l : List PgExpr) (i : Nat), (∀ e ∈ l, paramEntryOK e) →
      kparamDefs i l = .ok (lineJoin (paramLinesFrom i l))
  | [], i => by
      intro _
      simp [kparamDefs, paramLinesFrom, lineJoin]
  | e :: rest, i => by
      intro h
      have he := h e (List.mem_cons_self e rest)
      have ih := kparamDefs_ok rest (i + 1) (fun x hx => h x (List.mem_cons_of_mem e hx))
      cases e with
      | econst t v =>
          have hs : (pgstrom_devtype_lookup t).isSome = true := he
          rw [Option.isSome_iff_exists] at hs
          obtain ⟨d, hd⟩ := hs
          simp [kparamDefs, hd, ih, paramLinesFrom, lineJoin, dtypeOf, pgexprType]
      | eparam t p =>
          have hs : (pgstrom_devtype_lookup t).isSome = true := he
          rw [Option.isSome_iff_exists] at hs
          obtain ⟨d, hd⟩ := hs
          simp [kparamDefs, hd, ih, paramLinesFrom, lineJoin, dtypeOf, pgexprType]
      | evar t a => simp [paramEntryOK] at he
      | efunc o t args => simp [paramEntryOK] at he

theorem kvarDefs_ok :
    ∀ (l : List PgExpr) (i : Nat), (∀ e ∈ l, varEntryOK e) →
      kvarDefs i l = .ok (lineJoin (varLinesFrom i l))
  | [], i => by
      intro _
      simp [kvarDefs, varLinesFrom, lineJoin]
  | e :: rest, i => by
      intro h
      have he := h e (List.mem_cons_self e rest)
      have ih := kvarDefs_ok rest (i + 1) (fun x hx => h x (List.mem_cons_of_mem e hx))
      cases e with
      | evar t a =>
          have hs : (pgstrom_devtype_lookup t).isSome = true := he
          rw [Option.isSome_iff_exists] at hs
          obtain ⟨d, hd⟩ := hs
          simp [kvarDefs, hd, ih, varLinesFrom, lineJoin, dtypeOf, pgexprType]
      | econst t v => simp [varEntryOK] at he
      | eparam t p => simp [varEntryOK] at he
      | efunc o t args => simp [varEntryOK] at he

theorem usedVarsEntries_ok :
    ∀ (l : List PgExpr) (isHead : Bool), (∀ e ∈ l, varEntryOK e) →
      usedVarsEntries isHead l = .ok (ordinalsChunk isHead l)
  | [], isHead => by
      intro _
      simp [usedVarsEntries, ordinalsChunk]
  | e :: rest, isHead => by
      intro h
      have he := h e (List.mem_cons_self e rest)
      have ih := usedVarsEntries_ok rest false (fun x hx => h x (List.mem_cons_of_mem e hx))
      cases e with
      | evar t a => simp [usedVarsEntries, ih, ordinalsChunk, varattnoOf]
      | econst t v => simp [varEntryOK] at he
      | eparam t p => simp [varEntryOK] at he
      | efunc o t args => simp [varEntryOK] at he

theorem usedVarsArray_ok (vars : List PgExpr) (h : ∀ e ∈ vars, varEntryOK e) :
    usedVarsArray vars =
      .ok ('\n' :: (arrLineSpec vars ++ '\n' :: '\n' :: [])) := by
  have harr : "\nstatic __constant cl_ushort pg_used_vars[]=\x7b".data =
      '\n' :: "static __constant cl_ushort pg_used_vars[]=\x7b".data := rfl
  have hclose : "\x7d;\n\n".data = "\x7d;".data ++ ['\n', '\n'] := rfl
  simp [usedVarsArray, usedVarsEntries_ok vars true h, arrLineSpec, harr, hclose]

/- The full line list of the generated source. -/

def fullLinesSpec (ctx : codegen_context) (expr_code : List Char) : List (List Char) :=
  paramLinesFrom 0 ctx.used_params ++ varLinesFrom 0 ctx.used_vars ++
    ([] :: arrLineSpec ctx.used_vars :: [] :: kernelLines expr_code)

theorem gpuscan_codegen_quals_success (fcat : Nat → Option (List Char))
    (quals : List PgExpr) (hne : quals ≠ [])
    (hav : ∀ q ∈ quals, pgstrom_codegen_available_expression fcat q = true) :
    ∃ expr_code ctx,
      pgstrom_codegen_expression fcat quals = some (expr_code, ctx) ∧
      ctxInv ctx ∧
      gpuscan_codegen_quals fcat quals =
        .ok (ctx, some (lineJoin (fullLinesSpec ctx expr_code))) := by
  have hsome := codegen_conj_some fcat quals hne hav emptyContext
  rw [Option.isSome_iff_exists] at hsome
  obtain ⟨⟨expr_code, ctx⟩, hconj⟩ := hsome
  have hexpr : pgstrom_codegen_expression fcat quals = some (expr_code, ctx) := hconj
  have hinv : ctxInv ctx := by
    have := codegen_conj_inv fcat quals emptyContext (expr_code, ctx) hconj
    exact this ⟨by simp [emptyContext], by simp [emptyContext]⟩
  refine ⟨expr_code, ctx, hexpr, hinv, ?_⟩
  obtain ⟨q0, qrest, rfl⟩ : ∃ q0 qrest, quals = q0 :: qrest := by
    cases quals with
    | nil => exact absurd rfl hne
    | cons a b => exact ⟨a, b, rfl⟩
  have hp := kparamDefs_ok ctx.used_params 0 hinv.1
  have hv := kvarDefs_ok ctx.used_vars 0 hinv.2
  have ha := usedVarsArray_ok ctx.used_vars hinv.2
  simp only [gpuscan_codegen_quals, hexpr, hp, hv, ha, fullLinesSpec,
    gpuscanKernels_lineJoin, lineJoin_append, lineJoin, Except.ok.injEq,
    Option.some.injEq, Prod.mk.injEq, true_and, List.append_assoc, List.cons_append,
    List.nil_append]

/- Character facts about the pieces of the generated lines. -/

theorem devtype_ident_chars :
    ∀ (t : PGType) (d : devtype_info), pgstrom_devtype_lookup t = some d →
      ∀ c ∈ d.type_ident, isIdentCh c = true := by
  intro t d h
  cases t <;> simp only [pgstrom_devtype_lookup, Option.some.injEq, reduceCtorEq] at h <;>
    first
      | exact absurd h (by simp)
      | (subst h; decide)

theorem paramEntryOK_dtype {e : PgExpr} (h : paramEntryOK e) :
    pgstrom_devtype_lookup (pgexprType e) = some (dtypeOf e) := by
  cases e with
  | econst t v =>
      have hs : (pgstrom_devtype_lookup t).isSome = true := h
      rw [Option.isSome_iff_exists] at hs
      obtain ⟨d, hd⟩ := hs
      simp [pgexprType, dtypeOf, hd]
  | eparam t p =>
      have hs : (pgstrom_devtype_lookup t).isSome = true := h
      rw [Option.isSome_iff_exists] at hs
      obtain ⟨d, hd⟩ := hs
      simp [pgexprType, dtypeOf, hd]
  | evar t a => simp [paramEntryOK] at h
  | efunc o t args => simp [paramEntryOK] at h

theorem varEntryOK_dtype {e : PgExpr} (h : varEntryOK e) :
    pgstrom_devtype_lookup (pgexprType e) = some (dtypeOf e) := by
  cases e with
  | evar t a =>
      have hs : (pgstrom_devtype_lookup t).isSome = true := h
      rw [Option.isSome_iff_exists] at hs
      obtain ⟨d, hd⟩ := hs
      simp [pgexprType, dtypeOf, hd]
  | econst t v => simp [varEntryOK] at h
  | eparam t p => simp [varEntryOK] at h
  | efunc o t args => simp [varEntryOK] at h

theorem kparamLineChars_no_newline (i : Nat) {ident : List Char}
    (h : ∀ c ∈ ident, isIdentCh c = true) : '\n' ∉ kparamLineChars i ident := by
  intro hmem
  simp only [kparamLineChars, List.append_assoc, List.mem_append] at hmem
  rcases hmem with hm | hm | hm | hm | hm | hm | hm
  · exact absurd hm (by decide)
  · exact natToChars_no_newline _ hm
  · exact absurd hm (by decide)
  · exact identCh_ne_newline (h _ hm) rfl
  · exact absurd hm (by decide)
  · exact natToChars_no_newline _ hm
  · exact absurd hm (by decide)

theorem kvarLineChars_no_newline (i : Nat) {d : devtype_info}
    (h : ∀ c ∈ d.type_ident, isIdentCh c = true) : '\n' ∉ kvarLineChars i d := by
  intro hmem
  cases hb : d.type_is_varlena <;> simp only [kvarLineChars, hb, if_true, if_false,
    Bool.false_eq_true, List.append_assoc, List.mem_append] at hmem <;>
    rcases hmem with hm | hm | hm | hm | hm | hm | hm <;>
    first
      | exact absurd hm (by decide)
      | exact natToChars_no_newline _ hm
      | exact identCh_ne_newline (h _ hm) rfl

theorem paramLinesFrom_no_newline :
    ∀ (l : List PgExpr) (i : Nat), (∀ e ∈ l, paramEntryOK e) →
      ∀ x ∈ paramLinesFrom i l, '\n' ∉ x
  | [], _ => by intro _ x hx; simp [paramLinesFrom] at hx
  | e :: rest, i => by
      intro h x hx
      rcases List.mem_cons.mp hx with rfl | hx
      · exact kparamLineChars_no_newline i
          (devtype_ident_chars _ _ (paramEntryOK_dtype (h e (List.mem_cons_self e rest))))
      · exact paramLinesFrom_no_newline rest (i + 1)
          (fun y hy => h y (List.mem_cons_of_mem e hy)) x hx

theorem varLinesFrom_no_newline :
    ∀ (l : List PgExpr) (i : Nat), (∀ e ∈ l, varEntryOK e) →
      ∀ x ∈ varLinesFrom i l, '\n' ∉ x
  | [], _ => by intro _ x hx; simp [varLinesFrom] at hx
  | e :: rest, i => by
      intro h x hx
      rcases List.mem_cons.mp hx with rfl | hx
      · exact kvarLineChars_no_newline i
          (devtype_ident_chars _ _ (varEntryOK_dtype (h e (List.mem_cons_self e rest))))
      · exact varLinesFrom_no_newline rest (i + 1)
          (fun y hy => h y (List.mem_cons_of_mem e hy)) x hx

theorem ordinalsChunk_no_newline :
    ∀ (l : List PgExpr) (b : Bool), '\n' ∉ ordinalsChunk b l
  | [], _ => by simp [ordinalsChunk]
  | e :: rest, b => by
      intro hmem
      simp only [ordinalsChunk, List.append_assoc, List.mem_append] at hmem
      rcases hmem with hm | hm | hm
      · cases b
        · exact absurd hm (by decide)
        · exact absurd hm (by decide)
      · exact natToChars_no_newline _ hm
      · exact ordinalsChunk_no_newline rest false hm

theorem arrLineSpec_no_newline (vars : List PgExpr) : '\n' ∉ arrLineSpec vars := by
  intro hmem
  simp only [arrLineSpec, List.append_assoc, List.mem_append] at hmem
  rcases hmem with hm | hm | hm
  · exact absurd hm (by decide)
  · exact ordinalsChunk_no_newline vars true hm
  · exact absurd hm (by decide)

theorem kernelLines_no_newline {expr_code : List Char} (he : '\n' ∉ expr_code) :
    ∀ x ∈ kernelLines expr_code, '\n' ∉ x := by
  intro x hx
  simp only [kernelLines, List.mem_append, List.mem_cons] at hx
  rcases hx with hx | hx | hx
  · exact (by decide : ∀ y ∈ kernelLinesPre, '\n' ∉ y) x hx
  · subst hx
    intro hmem
    simp only [rcLineChars, List.append_assoc, List.mem_append] at hmem
    rcases hmem with hm | hm | hm
    · exact absurd hm (by decide)
    · exact he hm
    · exact absurd hm (by decide)
  · exact (by decide : ∀ y ∈ kernelLinesPost, '\n' ∉ y) x hx

theorem fullLinesSpec_no_newline {ctx : codegen_context} {expr_code : List Char}
    (hinv : ctxInv ctx) (he : '\n' ∉ expr_code) :
    ∀ x ∈ fullLinesSpec ctx expr_code, '\n' ∉ x := by
  intro x hx
  simp only [fullLinesSpec, List.append_assoc, List.mem_append, List.mem_cons] at hx
  rcases hx with hx | hx | hx | hx | hx | hx
  · exact paramLinesFrom_no_newline _ 0 hinv.1 x hx
  · exact varLinesFrom_no_newline _ 0 hinv.2 x hx
  · subst hx; simp
  · subst hx; exact arrLineSpec_no_newline _
  · subst hx; simp
  · exact kernelLines_no_newline he x hx

/- Prefix tests on generated lines. -/

def isKParamLine (l : List Char) : Bool := "#define KPARAM_".data.isPrefixOf l

def isKVarLine (l : List Char) : Bool := "#define KVAR_".data.isPrefixOf l

def isStaticLine (l : List Char) : Bool := "static".data.isPrefixOf l

theorem not_prefix_of_ne_at {p x : List Char} (i : Nat) (hip : i < p.length)
    (hix : i < x.length) (hne : p.get ⟨i, hip⟩ ≠ x.get ⟨i, hix⟩) : ¬ p <+: x := by
  rintro ⟨t, rfl⟩
  exact hne (List.get_append i hip).symm

theorem not_prefixOf_append {p a : List Char} (i : Nat) (hip : i < p.length)
    (hia : i < a.length) (hne : p.get ⟨i, hip⟩ ≠ a.get ⟨i, hia⟩) (s : List Char) :
    p.isPrefixOf (a ++ s) = false := by
  cases hb : p.isPrefixOf (a ++ s) with
  | false => rfl
  | true =>
      exfalso
      have hpre := List.isPrefixOf_iff_prefix.mp hb
      have hix : i < (a ++ s).length := by
        rw [List.length_append]
        omega
      refine not_prefix_of_ne_at i hip hix ?_ hpre
      rw [List.get_append i hia]
      exact hne

/- Filter characterization: which lines of the generated source satisfy the
   three line tests. -/

theorem isKParamLine_kparam (i : Nat) (ident : List Char) :
    isKParamLine (kparamLineChars i ident) = true := by
  rw [isKParamLine, List.isPrefixOf_iff_prefix]
  exact ⟨natToChars i ++ "\tpg_".data ++ ident ++ "_param(kparams,".data ++ natToChars i ++
    ")".data, by simp [kparamLineChars, List.append_assoc]⟩

theorem kvarLineChars_decomp (i : Nat) (d : devtype_info) :
    ∃ s, kvarLineChars i d = "#define KVAR_".data ++ s := by
  cases hb : d.type_is_varlena
  · exact ⟨natToChars i ++ "\tpg_".data ++ d.type_ident ++ "_vref(kcs,".data ++
      natToChars i ++ ",get_global_id(0))".data,
      by simp [kvarLineChars, hb, List.append_assoc]⟩
  · exact ⟨natToChars i ++ "\tpg_".data ++ d.type_ident ++ "_vref(kcs,toast,".data ++
      natToChars i ++ ",get_global_id(0))".data,
      by simp [kvarLineChars, hb, List.append_assoc]⟩

theorem isKVarLine_kvar (i : Nat) (d : devtype_info) :
    isKVarLine (kvarLineChars i d) = true := by
  obtain ⟨s, hs⟩ := kvarLineChars_decomp i d
  rw [hs, isKVarLine, List.isPrefixOf_iff_prefix]
  exact ⟨s, rfl⟩

theorem isKParamLine_kv (s : List Char) :
    isKParamLine ("#define KVAR_".data ++ s) = false :=
  not_prefixOf_append 9 (by decide) (by decide) (by decide) s

theorem isKVarLine_kp (s : List Char) :
    isKVarLine ("#define KPARAM_".data ++ s) = false :=
  not_prefixOf_append 9 (by decide) (by decide) (by decide) s

theorem isStaticLine_kp (s : List Char) :
    isStaticLine ("#define KPARAM_".data ++ s) = false :=
  not_prefixOf_append 0 (by decide) (by decide) (by decide) s

theorem isStaticLine_kv (s : List Char) :
    isStaticLine ("#define KVAR_".data ++ s) = false :=
  not_prefixOf_append 0 (by decide) (by decide) (by decide) s

theorem isKParamLine_static (s : List Char) :
    isKParamLine ("static __constant cl_ushort pg_used_vars[]=\x7b".data ++ s) = false :=
  not_prefixOf_append 0 (by decide) (by decide) (by decide) s

theorem isKVarLine_static (s : List Char) :
    isKVarLine ("static __constant cl_ushort pg_used_vars[]=\x7b".data ++ s) = false :=
  not_prefixOf_append 0 (by decide) (by decide) (by decide) s

theorem isStaticLine_static (s : List Char) :
    isStaticLine ("static __constant cl_ushort pg_used_vars[]=\x7b".data ++ s) = true := by
  rw [isStaticLine, List.isPrefixOf_iff_prefix]
  exact ⟨" __constant cl_ushort pg_used_vars[]=\x7b".data ++ s,
    by rw [← List.append_assoc]; rfl⟩

theorem isKParamLine_rc (s : List Char) :
    isKParamLine ("    rc = ".data ++ s) = false :=
  not_prefixOf_append 0 (by decide) (by decide) (by decide) s

theorem isKVarLine_rc (s : List Char) :
    isKVarLine ("    rc = ".data ++ s) = false :=
  not_prefixOf_append 0 (by decide) (by decide) (by decide) s

theorem isStaticLine_rc (s : List Char) :
    isStaticLine ("    rc = ".data ++ s) = false :=
  not_prefixOf_append 0 (by decide) (by decide) (by decide) s

theorem kparamLineChars_decomp (i : Nat) (ident : List Char) :
    ∃ s, kparamLineChars i ident = "#define KPARAM_".data ++ s :=
  ⟨natToChars i ++ "\tpg_".data ++ ident ++ "_param(kparams,".data ++ natToChars i ++
    ")".data, by simp [kparamLineChars, List.append_assoc]⟩

theorem rcLineChars_decomp (e : List Char) :
    ∃ s, rcLineChars e = "    rc = ".data ++ s :=
  ⟨e ++ ";".data, by simp [rcLineChars, List.append_assoc]⟩

theorem arrLineSpec_decomp (vars : List PgExpr) :
    ∃ s, arrLineSpec vars =
      "static __constant cl_ushort pg_used_vars[]=\x7b".data ++ s :=
  ⟨ordinalsChunk true vars ++ "\x7d;".data, by simp [arrLineSpec, List.append_assoc]⟩

theorem paramLines_filter_self :
    ∀ (l : List PgExpr) (i : Nat),
      (paramLinesFrom i l).filter isKParamLine = paramLinesFrom i l
  | [], _ => rfl
  | e :: rest, i => by
      simp [paramLinesFrom, List.filter_cons, isKParamLine_kparam,
        paramLines_filter_self rest (i + 1)]

theorem paramLines_filter_none (q : List Char → Bool)
    (hq : ∀ s, q ("#define KPARAM_".data ++ s) = false) :
    ∀ (l : List PgExpr) (i : Nat), (paramLinesFrom i l).filter q = []
  | [], _ => rfl
  | e :: rest, i => by
      obtain ⟨s, hs⟩ := kparamLineChars_decomp i (dtypeOf e).type_ident
      rw [paramLinesFrom, List.filter_cons, hs, hq s,
        paramLines_filter_none q hq rest (i + 1)]
      simp

theorem varLines_filter_self :
    ∀ (l : List PgExpr) (i : Nat),
      (varLinesFrom i l).filter isKVarLine = varLinesFrom i l
  | [], _ => rfl
  | e :: rest, i => by
      simp [varLinesFrom, List.filter_cons, isKVarLine_kvar,
        varLines_filter_self rest (i + 1)]

theorem varLines_filter_none (q : List Char → Bool)
    (hq : ∀ s, q ("#define KVAR_".data ++ s) = false) :
    ∀ (l : List PgExpr) (i : Nat), (varLinesFrom i l).filter q = []
  | [], _ => rfl
  | e :: rest, i => by
      obtain ⟨s, hs⟩ := kvarLineChars_decomp i (dtypeOf e)
      rw [varLinesFrom, List.filter_cons, hs, hq s,
        varLines_filter_none q hq rest (i + 1)]
      simp

set_option maxRecDepth 40000 in
theorem kernelLinesPre_filter_kp : kernelLinesPre.filter isKParamLine = [] := by decide

set_option maxRecDepth 40000 in
theorem kernelLinesPre_filter_kv : kernelLinesPre.filter isKVarLine = [] := by decide

set_option maxRecDepth 40000 in
theorem kernelLinesPre_filter_st : kernelLinesPre.filter isStaticLine = [] := by decide

set_option maxRecDepth 40000 in
theorem kernelLinesPost_filter_kp : kernelLinesPost.filter isKParamLine = [] := by decide

set_option maxRecDepth 40000 in
theorem kernelLinesPost_filter_kv : kernelLinesPost.filter isKVarLine = [] := by decide

set_option maxRecDepth 40000 in
theorem kernelLinesPost_filter_st : kernelLinesPost.filter isStaticLine = [] := by decide

theorem filter_kp_full (ctx : codegen_context) (e : List Char) :
    ((fullLinesSpec ctx e) ++ [([] : List Char)]).filter isKParamLine =
      paramLinesFrom 0 ctx.used_params := by
  obtain ⟨s1, hs1⟩ := rcLineChars_decomp e
  obtain ⟨s2, hs2⟩ := arrLineSpec_decomp ctx.used_vars
  have hemp : isKParamLine [] = false := by decide
  have h4 : isKParamLine (arrLineSpec ctx.used_vars) = false := by
    rw [hs2]; exact isKParamLine_static s2
  have h5 : isKParamLine (rcLineChars e) = false := by
    rw [hs1]; exact isKParamLine_rc s1
  simp [fullLinesSpec, kernelLines, List.filter_append, List.filter_cons,
    paramLines_filter_self, varLines_filter_none isKParamLine isKParamLine_kv,
    kernelLinesPre_filter_kp, kernelLinesPost_filter_kp, h4, h5, hemp]

theorem filter_kv_full (ctx : codegen_context) (e : List Char) :
    ((fullLinesSpec ctx e) ++ [([] : List Char)]).filter isKVarLine =
      varLinesFrom 0 ctx.used_vars := by
  obtain ⟨s1, hs1⟩ := rcLineChars_decomp e
  obtain ⟨s2, hs2⟩ := arrLineSpec_decomp ctx.used_vars
  have hemp : isKVarLine [] = false := by decide
  have h4 : isKVarLine (arrLineSpec ctx.used_vars) = false := by
    rw [hs2]; exact isKVarLine_static s2
  have h5 : isKVarLine (rcLineChars e) = false := by
    rw [hs1]; exact isKVarLine_rc s1
  simp [fullLinesSpec, kernelLines, List.filter_append, List.filter_cons,
    varLines_filter_self, paramLines_filter_none isKVarLine isKVarLine_kp,
    kernelLinesPre_filter_kv, kernelLinesPost_filter_kv, h4, h5, hemp]

theorem filter_st_full (ctx : codegen_context) (e : List Char) :
    ((fullLinesSpec ctx e) ++ [([] : List Char)]).filter isStaticLine =
      [arrLineSpec ctx.used_vars] := by
  obtain ⟨s1, hs1⟩ := rcLineChars_decomp e
  have hst : isStaticLine (arrLineSpec ctx.used_vars) = true := by
    obtain ⟨s2, hs2⟩ := arrLineSpec_decomp ctx.used_vars
    rw [hs2]
    exact isStaticLine_static s2
  have hemp : isStaticLine [] = false := by decide
  have h5 : isStaticLine (rcLineChars e) = false := by
    rw [hs1]; exact isStaticLine_rc s1
  simp [fullLinesSpec, kernelLines, List.filter_append, List.filter_cons,
    paramLines_filter_none isStaticLine isStaticLine_kp,
    varLines_filter_none isStaticLine isStaticLine_kv,
    kernelLinesPre_filter_st, kernelLinesPost_filter_st, h5, hst, hemp]

/- Extraction of the kernel entry points: the identifier opening the line
   that follows each "__kernel void" line, in order of occurrence. -/

def kwLine : List Char := "__kernel void".data

def entryNamesOf : List (List Char) → List (List Char)
  | a :: b :: rest =>
      if a = kwLine then b.takeWhile isIdentCh :: entryNamesOf (b :: rest)
      else entryNamesOf (b :: rest)
  | _ => []

theorem entryNamesOf_cons_ne {a : List Char} (h : a ≠ kwLine) (rest : List (List Char)) :
    entryNamesOf (a :: rest) = entryNamesOf rest := by
  cases rest with
  | nil => rfl
  | cons b r => simp [entryNamesOf, h]

theorem entryNamesOf_kw (b : List Char) (rest : List (List Char)) :
    entryNamesOf (kwLine :: b :: rest) = b.takeWhile isIdentCh :: entryNamesOf (b :: rest) := by
  simp [entryNamesOf]

theorem entryNamesOf_append_ne :
    ∀ (A : List (List Char)), (∀ x ∈ A, x ≠ kwLine) →
      ∀ (B : List (List Char)), entryNamesOf (A ++ B) = entryNamesOf B
  | [], _ => fun _ => rfl
  | a :: A, h => fun B => by
      rw [List.cons_append, entryNamesOf_cons_ne (h a (List.mem_cons_self a A)),
        entryNamesOf_append_ne A (fun x hx => h x (List.mem_cons_of_mem a hx)) B]

theorem entryNamesOf_block (A : List (List Char)) (hA : ∀ x ∈ A, x ≠ kwLine)
    (b : List Char) (rest : List (List Char)) :
    entryNamesOf (A ++ kwLine :: b :: rest) =
      b.takeWhile isIdentCh :: entryNamesOf (b :: rest) := by
  rw [entryNamesOf_append_ne A hA, entryNamesOf_kw]

theorem ne_kw_of_head {x : List Char} (hx : x.head? ≠ some (Char.ofNat 95)) : x ≠ kwLine :=
  fun h => hx (by rw [h]; rfl)

theorem entryNames_kernelLines (e : List Char) :
    entryNamesOf (kernelLines e ++ [([] : List Char)]) =
      ["gpuscan_qual_cs".data, "gpuscan_qual_rs_prep".data, "gpuscan_qual_rs".data] := by
  have hrc : rcLineChars e ≠ kwLine := by
    obtain ⟨s, hs⟩ := rcLineChars_decomp e
    rw [hs]
    apply ne_kw_of_head
    rw [show (("    rc = ".data ++ s)).head? = some ' ' from rfl]
    decide
  have hA1 : ∀ x ∈ ("gpuscan_qual_cs(__global kern_gpuscan *gpuscan,".data :: (["                __global kern_parambuf *kparams,".data,
      "                __global kern_column_store *kcs,".data,
      "                __global kern_toastbuf *toast,".data,
      "                __local void *local_workmem)".data,
      "\x7b".data,
      "  pg_bool_t   rc;".data,
      "  cl_int      errcode;".data,
      "".data,
      "  gpuscan_local_init(local_workmem);".data,
      "  if (get_global_id(0) < kcs->nrows)".data] ++ rcLineChars e :: ["  else".data,
      "    rc.isnull = CL_TRUE;".data,
      "  kern_set_error(!rc.isnull && rc.value != 0".data,
      "                 ? StromError_Success".data,
      "                 : StromError_RowFiltered);".data,
      "  gpuscan_writeback_result(gpuscan);".data,
      "\x7d".data,
      "".data])), x ≠ kwLine := by
    intro x hx
    rcases List.mem_cons.mp hx with rfl | hx
    · decide
    rcases List.mem_append.mp hx with hx | hx
    · exact (by decide : ∀ y ∈ ["                __global kern_parambuf *kparams,".data,
      "                __global kern_column_store *kcs,".data,
      "                __global kern_toastbuf *toast,".data,
      "                __local void *local_workmem)".data,
      "\x7b".data,
      "  pg_bool_t   rc;".data,
      "  cl_int      errcode;".data,
      "".data,
      "  gpuscan_local_init(local_workmem);".data,
      "  if (get_global_id(0) < kcs->nrows)".data], y ≠ kwLine) x hx
    rcases List.mem_cons.mp hx with rfl | hx
    · exact hrc
    · exact (by decide : ∀ y ∈ ["  else".data,
      "    rc.isnull = CL_TRUE;".data,
      "  kern_set_error(!rc.isnull && rc.value != 0".data,
      "                 ? StromError_Success".data,
      "                 : StromError_RowFiltered);".data,
      "  gpuscan_writeback_result(gpuscan);".data,
      "\x7d".data,
      "".data], y ≠ kwLine) x hx
  have hA2 : ∀ x ∈ ("gpuscan_qual_rs_prep(__global kern_row_store *krs,".data :: ["                     __global kern_column_store *kcs)".data,
      "\x7b".data,
      "  kern_row_to_column_prep(krs,kcs,".data,
      "                          lengthof(used_vars),".data,
      "                          used_vars);".data,
      "\x7d".data,
      "".data]), x ≠ kwLine := by decide
  have hA3 : ∀ x ∈ ("gpuscan_qual_rs(__global kern_gpuscan *gpuscan,".data :: ["                __global kern_parambuf *kparams,".data,
      "                __global kern_row_store *krs,".data,
      "                __global kern_column_store *kcs,".data,
      "                __local void *local_workmem)".data,
      "\x7b".data,
      "  kern_row_to_column(krs,kcs,".data,
      "                     lengthof(used_vars),".data,
      "                     used_vars,".data,
      "                     local_workmem);".data,
      "  gpuscan_qual_cs(gpuscan,kparams,kcs,".data,
      "                  (kern_toastbuf *)krs,".data,
      "                  local_workmem);".data,
      "\x7d".data]), x ≠ kwLine := by decide
  calc entryNamesOf (kernelLines e ++ [([] : List Char)])
      = entryNamesOf ([] ++ kwLine :: "gpuscan_qual_cs(__global kern_gpuscan *gpuscan,".data :: (["                __global kern_parambuf *kparams,".data,
      "                __global kern_column_store *kcs,".data,
      "                __global kern_toastbuf *toast,".data,
      "                __local void *local_workmem)".data,
      "\x7b".data,
      "  pg_bool_t   rc;".data,
      "  cl_int      errcode;".data,
      "".data,
      "  gpuscan_local_init(local_workmem);".data,
      "  if (get_global_id(0) < kcs->nrows)".data] ++ rcLineChars e :: ["  else".data,
      "    rc.isnull = CL_TRUE;".data,
      "  kern_set_error(!rc.isnull && rc.value != 0".data,
      "                 ? StromError_Success".data,
      "                 : StromError_RowFiltered);".data,
      "  gpuscan_writeback_result(gpuscan);".data,
      "\x7d".data,
      "".data] ++ kwLine :: "gpuscan_qual_rs_prep(__global kern_row_store *krs,".data :: (["                     __global kern_column_store *kcs)".data,
      "\x7b".data,
      "  kern_row_to_column_prep(krs,kcs,".data,
      "                          lengthof(used_vars),".data,
      "                          used_vars);".data,
      "\x7d".data,
      "".data] ++ kwLine :: "gpuscan_qual_rs(__global kern_gpuscan *gpuscan,".data :: (["                __global kern_parambuf *kparams,".data,
      "                __global kern_row_store *krs,".data,
      "                __global kern_column_store *kcs,".data,
      "                __local void *local_workmem)".data,
      "\x7b".data,
      "  kern_row_to_column(krs,kcs,".data,
      "                     lengthof(used_vars),".data,
      "                     used_vars,".data,
      "                     local_workmem);".data,
      "  gpuscan_qual_cs(gpuscan,kparams,kcs,".data,
      "                  (kern_toastbuf *)krs,".data,
      "                  local_workmem);".data,
      "\x7d".data] ++ [([] : List Char)])))) := rfl
    _ = ("gpuscan_qual_cs(__global kern_gpuscan *gpuscan,".data).takeWhile isIdentCh :: entryNamesOf ("gpuscan_qual_cs(__global kern_gpuscan *gpuscan,".data :: (["                __global kern_parambuf *kparams,".data,
      "                __global kern_column_store *kcs,".data,
      "                __global kern_toastbuf *toast,".data,
      "                __local void *local_workmem)".data,
      "\x7b".data,
      "  pg_bool_t   rc;".data,
      "  cl_int      errcode;".data,
      "".data,
      "  gpuscan_local_init(local_workmem);".data,
      "  if (get_global_id(0) < kcs->nrows)".data] ++ rcLineChars e :: ["  else".data,
      "    rc.isnull = CL_TRUE;".data,
      "  kern_set_error(!rc.isnull && rc.value != 0".data,
      "                 ? StromError_Success".data,
      "                 : StromError_RowFiltered);".data,
      "  gpuscan_writeback_result(gpuscan);".data,
      "\x7d".data,
      "".data] ++ kwLine :: "gpuscan_qual_rs_prep(__global kern_row_store *krs,".data :: (["                     __global kern_column_store *kcs)".data,
      "\x7b".data,
      "  kern_row_to_column_prep(krs,kcs,".data,
      "                          lengthof(used_vars),".data,
      "                          used_vars);".data,
      "\x7d".data,
      "".data] ++ kwLine :: "gpuscan_qual_rs(__global kern_gpuscan *gpuscan,".data :: (["                __global kern_parambuf *kparams,".data,
      "                __global kern_row_store *krs,".data,
      "                __global kern_column_store *kcs,".data,
      "                __local void *local_workmem)".data,
      "\x7b".data,
      "  kern_row_to_column(krs,kcs,".data,
      "                     lengthof(used_vars),".data,
      "                     used_vars,".data,
      "                     local_workmem);".data,
      "  gpuscan_qual_cs(gpuscan,kparams,kcs,".data,
      "                  (kern_toastbuf *)krs,".data,
      "                  local_workmem);".data,
      "\x7d".data] ++ [([] : List Char)])))) :=
        entryNamesOf_block [] (by simp) "gpuscan_qual_cs(__global kern_gpuscan *gpuscan,".data (["                __global kern_parambuf *kparams,".data,
      "                __global kern_column_store *kcs,".data,
      "                __global kern_toastbuf *toast,".data,
      "                __local void *local_workmem)".data,
      "\x7b".data,
      "  pg_bool_t   rc;".data,
      "  cl_int      errcode;".data,
      "".data,
      "  gpuscan_local_init(local_workmem);".data,
      "  if (get_global_id(0) < kcs->nrows)".data] ++ rcLineChars e :: ["  else".data,
      "    rc.isnull = CL_TRUE;".data,
      "  kern_set_error(!rc.isnull && rc.value != 0".data,
      "                 ? StromError_Success".data,
      "                 : StromError_RowFiltered);".data,
      "  gpuscan_writeback_result(gpuscan);".data,
      "\x7d".data,
      "".data] ++ kwLine :: "gpuscan_qual_rs_prep(__global kern_row_store *krs,".data :: (["                     __global kern_column_store *kcs)".data,
      "\x7b".data,
      "  kern_row_to_column_prep(krs,kcs,".data,
      "                          lengthof(used_vars),".data,
      "                          used_vars);".data,
      "\x7d".data,
      "".data] ++ kwLine :: "gpuscan_qual_rs(__global kern_gpuscan *gpuscan,".data :: (["                __global kern_parambuf *kparams,".data,
      "                __global kern_row_store *krs,".data,
      "                __global kern_column_store *kcs,".data,
      "                __local void *local_workmem)".data,
      "\x7b".data,
      "  kern_row_to_column(krs,kcs,".data,
      "                     lengthof(used_vars),".data,
      "                     used_vars,".data,
      "                     local_workmem);".data,
      "  gpuscan_qual_cs(gpuscan,kparams,kcs,".data,
      "                  (kern_toastbuf *)krs,".data,
      "                  local_workmem);".data,
      "\x7d".data] ++ [([] : List Char)])))
    _ = ("gpuscan_qual_cs(__global kern_gpuscan *gpuscan,".data).takeWhile isIdentCh :: entryNamesOf (("gpuscan_qual_cs(__global kern_gpuscan *gpuscan,".data :: (["                __global kern_parambuf *kparams,".data,
      "                __global kern_column_store *kcs,".data,
      "                __global kern_toastbuf *toast,".data,
      "                __local void *local_workmem)".data,
      "\x7b".data,
      "  pg_bool_t   rc;".data,
      "  cl_int      errcode;".data,
      "".data,
      "  gpuscan_local_init(local_workmem);".data,
      "  if (get_global_id(0) < kcs->nrows)".data] ++ rcLineChars e :: ["  else".data,
      "    rc.isnull = CL_TRUE;".data,
      "  kern_set_error(!rc.isnull && rc.value != 0".data,
      "                 ? StromError_Success".data,
      "                 : StromError_RowFiltered);".data,
      "  gpuscan_writeback_result(gpuscan);".data,
      "\x7d".data,
      "".data])) ++ kwLine :: "gpuscan_qual_rs_prep(__global kern_row_store *krs,".data :: (["                     __global kern_column_store *kcs)".data,
      "\x7b".data,
      "  kern_row_to_column_prep(krs,kcs,".data,
      "                          lengthof(used_vars),".data,
      "                          used_vars);".data,
      "\x7d".data,
      "".data] ++ kwLine :: "gpuscan_qual_rs(__global kern_gpuscan *gpuscan,".data :: (["                __global kern_parambuf *kparams,".data,
      "                __global kern_row_store *krs,".data,
      "                __global kern_column_store *kcs,".data,
      "                __local void *local_workmem)".data,
      "\x7b".data,
      "  kern_row_to_column(krs,kcs,".data,
      "                     lengthof(used_vars),".data,
      "                     used_vars,".data,
      "                     local_workmem);".data,
      "  gpuscan_qual_cs(gpuscan,kparams,kcs,".data,
      "                  (kern_toastbuf *)krs,".data,
      "                  local_workmem);".data,
      "\x7d".data] ++ [([] : List Char)]))) := rfl
    _ = ("gpuscan_qual_cs(__global kern_gpuscan *gpuscan,".data).takeWhile isIdentCh :: (("gpuscan_qual_rs_prep(__global kern_row_store *krs,".data).takeWhile isIdentCh :: entryNamesOf ("gpuscan_qual_rs_prep(__global kern_row_store *krs,".data :: (["                     __global kern_column_store *kcs)".data,
      "\x7b".data,
      "  kern_row_to_column_prep(krs,kcs,".data,
      "                          lengthof(used_vars),".data,
      "                          used_vars);".data,
      "\x7d".data,
      "".data] ++ kwLine :: "gpuscan_qual_rs(__global kern_gpuscan *gpuscan,".data :: (["                __global kern_parambuf *kparams,".data,
      "                __global kern_row_store *krs,".data,
      "                __global kern_column_store *kcs,".data,
      "                __local void *local_workmem)".data,
      "\x7b".data,
      "  kern_row_to_column(krs,kcs,".data,
      "                     lengthof(used_vars),".data,
      "                     used_vars,".data,
      "                     local_workmem);".data,
      "  gpuscan_qual_cs(gpuscan,kparams,kcs,".data,
      "                  (kern_toastbuf *)krs,".data,
      "                  local_workmem);".data,
      "\x7d".data] ++ [([] : List Char)])))) := by
        rw [entryNamesOf_block ("gpuscan_qual_cs(__global kern_gpuscan *gpuscan,".data :: (["                __global kern_parambuf *kparams,".data,
      "                __global kern_column_store *kcs,".data,
      "                __global kern_toastbuf *toast,".data,
      "                __local void *local_workmem)".data,
      "\x7b".data,
      "  pg_bool_t   rc;".data,
      "  cl_int      errcode;".data,
      "".data,
      "  gpuscan_local_init(local_workmem);".data,
      "  if (get_global_id(0) < kcs->nrows)".data] ++ rcLineChars e :: ["  else".data,
      "    rc.isnull = CL_TRUE;".data,
      "  kern_set_error(!rc.isnull && rc.value != 0".data,
      "                 ? StromError_Success".data,
      "                 : StromError_RowFiltered);".data,
      "  gpuscan_writeback_result(gpuscan);".data,
      "\x7d".data,
      "".data])) hA1 "gpuscan_qual_rs_prep(__global kern_row_store *krs,".data (["                     __global kern_column_store *kcs)".data,
      "\x7b".data,
      "  kern_row_to_column_prep(krs,kcs,".data,
      "                          lengthof(used_vars),".data,
      "                          used_vars);".data,
      "\x7d".data,
      "".data] ++ kwLine :: "gpuscan_qual_rs(__global kern_gpuscan *gpuscan,".data :: (["                __global kern_parambuf *kparams,".data,
      "                __global kern_row_store *krs,".data,
      "                __global kern_column_store *kcs,".data,
      "                __local void *local_workmem)".data,
      "\x7b".data,
      "  kern_row_to_column(krs,kcs,".data,
      "                     lengthof(used_vars),".data,
      "                     used_vars,".data,
      "                     local_workmem);".data,
      "  gpuscan_qual_cs(gpuscan,kparams,kcs,".data,
      "                  (kern_toastbuf *)krs,".data,
      "                  local_workmem);".data,
      "\x7d".data] ++ [([] : List Char)]))]
    _ = ("gpuscan_qual_cs(__global kern_gpuscan *gpuscan,".data).takeWhile isIdentCh :: ("gpuscan_qual_rs_prep(__global kern_row_store *krs,".data).takeWhile isIdentCh :: entryNamesOf (("gpuscan_qual_rs_prep(__global kern_row_store *krs,".data :: ["                     __global kern_column_store *kcs)".data,
      "\x7b".data,
      "  kern_row_to_column_prep(krs,kcs,".data,
      "                          lengthof(used_vars),".data,
      "                          used_vars);".data,
      "\x7d".data,
      "".data]) ++ kwLine :: "gpuscan_qual_rs(__global kern_gpuscan *gpuscan,".data :: (["                __global kern_parambuf *kparams,".data,
      "                __global kern_row_store *krs,".data,
      "                __global kern_column_store *kcs,".data,
      "                __local void *local_workmem)".data,
      "\x7b".data,
      "  kern_row_to_column(krs,kcs,".data,
      "                     lengthof(used_vars),".data,
      "                     used_vars,".data,
      "                     local_workmem);".data,
      "  gpuscan_qual_cs(gpuscan,kparams,kcs,".data,
      "                  (kern_toastbuf *)krs,".data,
      "                  local_workmem);".data,
      "\x7d".data] ++ [([] : List Char)])) := rfl
    _ = ("gpuscan_qual_cs(__global kern_gpuscan *gpuscan,".data).takeWhile isIdentCh :: ("gpuscan_qual_rs_prep(__global kern_row_store *krs,".data).takeWhile isIdentCh :: (("gpuscan_qual_rs(__global kern_gpuscan *gpuscan,".data).takeWhile isIdentCh :: entryNamesOf ("gpuscan_qual_rs(__global kern_gpuscan *gpuscan,".data :: (["                __global kern_parambuf *kparams,".data,
      "                __global kern_row_store *krs,".data,
      "                __global kern_column_store *kcs,".data,
      "                __local void *local_workmem)".data,
      "\x7b".data,
      "  kern_row_to_column(krs,kcs,".data,
      "                     lengthof(used_vars),".data,
      "                     used_vars,".data,
      "                     local_workmem);".data,
      "  gpuscan_qual_cs(gpuscan,kparams,kcs,".data,
      "                  (kern_toastbuf *)krs,".data,
      "                  local_workmem);".data,
      "\x7d".data] ++ [([] : List Char)]))) := by
        rw [entryNamesOf_block ("gpuscan_qual_rs_prep(__global kern_row_store *krs,".data :: ["                     __global kern_column_store *kcs)".data,
      "\x7b".data,
      "  kern_row_to_column_prep(krs,kcs,".data,
      "                          lengthof(used_vars),".data,
      "                          used_vars);".data,
      "\x7d".data,
      "".data]) hA2 "gpuscan_qual_rs(__global kern_gpuscan *gpuscan,".data (["                __global kern_parambuf *kparams,".data,
      "                __global kern_row_store *krs,".data,
      "                __global kern_column_store *kcs,".data,
      "                __local void *local_workmem)".data,
      "\x7b".data,
      "  kern_row_to_column(krs,kcs,".data,
      "                     lengthof(used_vars),".data,
      "                     used_vars,".data,
      "                     local_workmem);".data,
      "  gpuscan_qual_cs(gpuscan,kparams,kcs,".data,
      "                  (kern_toastbuf *)krs,".data,
      "                  local_workmem);".data,
      "\x7d".data] ++ [([] : List Char)])]
    _ = ("gpuscan_qual_cs(__global kern_gpuscan *gpuscan,".data).takeWhile isIdentCh :: ("gpuscan_qual_rs_prep(__global kern_row_store *krs,".data).takeWhile isIdentCh :: ("gpuscan_qual_rs(__global kern_gpuscan *gpuscan,".data).takeWhile isIdentCh :: entryNamesOf (("gpuscan_qual_rs(__global kern_gpuscan *gpuscan,".data :: ["                __global kern_parambuf *kparams,".data,
      "                __global kern_row_store *krs,".data,
      "                __global kern_column_store *kcs,".data,
      "                __local void *local_workmem)".data,
      "\x7b".data,
      "  kern_row_to_column(krs,kcs,".data,
      "                     lengthof(used_vars),".data,
      "                     used_vars,".data,
      "                     local_workmem);".data,
      "  gpuscan_qual_cs(gpuscan,kparams,kcs,".data,
      "                  (kern_toastbuf *)krs,".data,
      "                  local_workmem);".data,
      "\x7d".data]) ++ [([] : List Char)]) := rfl
    _ = ("gpuscan_qual_cs(__global kern_gpuscan *gpuscan,".data).takeWhile isIdentCh :: ("gpuscan_qual_rs_prep(__global kern_row_store *krs,".data).takeWhile isIdentCh :: ("gpuscan_qual_rs(__global kern_gpuscan *gpuscan,".data).takeWhile isIdentCh :: entryNamesOf [([] : List Char)] := by
        rw [entryNamesOf_append_ne ("gpuscan_qual_rs(__global kern_gpuscan *gpuscan,".data :: ["                __global kern_parambuf *kparams,".data,
      "                __global kern_row_store *krs,".data,
      "                __global kern_column_store *kcs,".data,
      "                __local void *local_workmem)".data,
      "\x7b".data,
      "  kern_row_to_column(krs,kcs,".data,
      "                     lengthof(used_vars),".data,
      "                     used_vars,".data,
      "                     local_workmem);".data,
      "  gpuscan_qual_cs(gpuscan,kparams,kcs,".data,
      "                  (kern_toastbuf *)krs,".data,
      "                  local_workmem);".data,
      "\x7d".data]) hA3 [([] : List Char)]]
    _ = ["gpuscan_qual_cs".data, "gpuscan_qual_rs_prep".data, "gpuscan_qual_rs".data] := by
        decide

theorem kparamLine_ne_kw (j : Nat) (ident : List Char) :
    kparamLineChars j ident ≠ kwLine := by
  obtain ⟨s, hs⟩ := kparamLineChars_decomp j ident
  rw [hs]
  apply ne_kw_of_head
  rw [show (("#define KPARAM_".data ++ s)).head? = some '#' from rfl]
  decide

theorem kvarLine_ne_kw (j : Nat) (d : devtype_info) :
    kvarLineChars j d ≠ kwLine := by
  obtain ⟨s, hs⟩ := kvarLineChars_decomp j d
  rw [hs]
  apply ne_kw_of_head
  rw [show (("#define KVAR_".data ++ s)).head? = some '#' from rfl]
  decide

theorem arrLine_ne_kw (vars : List PgExpr) : arrLineSpec vars ≠ kwLine := by
  obtain ⟨s, hs⟩ := arrLineSpec_decomp vars
  rw [hs]
  apply ne_kw_of_head
  rw [show (("static __constant cl_ushort pg_used_vars[]=\x7b".data ++ s)).head? =
    some 's' from rfl]
  decide

theorem paramLinesFrom_shape :
    ∀ (l : List PgExpr) (i : Nat) (x : List Char), x ∈ paramLinesFrom i l →
      ∃ j ident, x = kparamLineChars j ident
  | [], _, x => by intro hx; simp [paramLinesFrom] at hx
  | e :: rest, i, x => by
      intro hx
      rcases List.mem_cons.mp hx with rfl | hx
      · exact ⟨i, (dtypeOf e).type_ident, rfl⟩
      · exact paramLinesFrom_shape rest (i + 1) x hx

theorem varLinesFrom_shape :
    ∀ (l : List PgExpr) (i : Nat) (x : List Char), x ∈ varLinesFrom i l →
      ∃ j d, x = kvarLineChars j d
  | [], _, x => by intro hx; simp [varLinesFrom] at hx
  | e :: rest, i, x => by
      intro hx
      rcases List.mem_cons.mp hx with rfl | hx
      · exact ⟨i, dtypeOf e, rfl⟩
      · exact varLinesFrom_shape rest (i + 1) x hx

theorem entryNames_full (ctx : codegen_context) (e : List Char) :
    entryNamesOf (fullLinesSpec ctx e ++ [([] : List Char)]) =
      ["gpuscan_qual_cs".data, "gpuscan_qual_rs_prep".data, "gpuscan_qual_rs".data] := by
  have hre : fullLinesSpec ctx e ++ [([] : List Char)] =
      (paramLinesFrom 0 ctx.used_params ++ varLinesFrom 0 ctx.used_vars ++
        ([] :: arrLineSpec ctx.used_vars :: [] :: [])) ++
      (kernelLines e ++ [([] : List Char)]) := by
    simp [fullLinesSpec, List.append_assoc]
  have hA0 : ∀ x ∈ paramLinesFrom 0 ctx.used_params ++ varLinesFrom 0 ctx.used_vars ++
      ([] :: arrLineSpec ctx.used_vars :: [] :: []), x ≠ kwLine := by
    intro x hx
    rcases List.mem_append.mp hx with hx | hx
    · rcases List.mem_append.mp hx with hx | hx
      · obtain ⟨j, ident, rfl⟩ := paramLinesFrom_shape _ _ x hx
        exact kparamLine_ne_kw j ident
      · obtain ⟨j, d, rfl⟩ := varLinesFrom_shape _ _ x hx
        exact kvarLine_ne_kw j d
    · rcases List.mem_cons.mp hx with rfl | hx
      · decide
      rcases List.mem_cons.mp hx with rfl | hx
      · exact arrLine_ne_kw ctx.used_vars
      rcases List.mem_cons.mp hx with rfl | hx
      · decide
      · simp at hx
  rw [hre, entryNamesOf_append_ne _ hA0, entryNames_kernelLines e]

/- Position-to-index correspondence of the macro line blocks: the line at
   position i defines KPARAM_(start+i) respectively KVAR_(start+i). -/

theorem paramLinesFrom_length :
    ∀ (l : List PgExpr) (i : Nat), (paramLinesFrom i l).length = l.length
  | [], _ => rfl
  | e :: rest, i => by simp [paramLinesFrom, paramLinesFrom_length rest (i + 1)]

theorem varLinesFrom_length :
    ∀ (l : List PgExpr) (i : Nat), (varLinesFrom i l).length = l.length
  | [], _ => rfl
  | e :: rest, i => by simp [varLinesFrom, varLinesFrom_length rest (i + 1)]

theorem paramLinesFrom_getD :
    ∀ (l : List PgExpr) (j i : Nat), i < l.length →
      (paramLinesFrom j l).getD i [] =
        kparamLineChars (j + i) (dtypeOf (l.getD i (PgExpr.econst PGType.t_bool 0))).type_ident
  | [], j, i => by intro h; simp at h
  | e :: rest, j, 0 => by intro _; simp [paramLinesFrom]
  | e :: rest, j, i + 1 => by
      intro h
      have ih := paramLinesFrom_getD rest (j + 1) i (by simpa using h)
      have harith : j + 1 + i = j + (i + 1) := by omega
      simp only [paramLinesFrom, List.getD_cons_succ, ih, harith]

theorem varLinesFrom_getD :
    ∀ (l : List PgExpr) (j i : Nat), i < l.length →
      (varLinesFrom j l).getD i [] =
        kvarLineChars (j + i) (dtypeOf (l.getD i (PgExpr.econst PGType.t_bool 0)))
  | [], j, i => by intro h; simp at h
  | e :: rest, j, 0 => by intro _; simp [varLinesFrom]
  | e :: rest, j, i + 1 => by
      intro h
      have ih := varLinesFrom_getD rest (j + 1) i (by simpa using h)
      have harith : j + 1 + i = j + (i + 1) := by omega
      simp only [varLinesFrom, List.getD_cons_succ, ih, harith]

/-- C3: for a non-empty, fully device-capable qualifier list the generated
kernel source contains, among its lines, exactly one KPARAM macro
definition line per used-params entry (the line at position i defining
KPARAM_i for the i-th entry, indices 0-based and dense) and exactly one
KVAR macro definition line per used-vars entry (position i defining
KVAR_i), exactly one constant array literal line, declaring pg_used_vars
with the raw column ordinals of the used-vars entries in assigned-index
order, and exactly the three kernel entry points in the order
gpuscan_qual_cs (column-store qualifier), gpuscan_qual_rs_prep
(row-to-column preparation), gpuscan_qual_rs (row-store qualifier). -/
theorem gpuscan_codegen_symbols_and_entrypoints (fcat : Nat → Option (List Char))
    (dev_quals : List PgExpr) (hfc : FcatOK fcat) (hne : dev_quals ≠ [])
    (hav : ∀ q ∈ dev_quals, pgstrom_codegen_available_expression fcat q = true) :
    ∃ ctx src,
      gpuscan_codegen_quals fcat dev_quals = .ok (ctx, some src) ∧
      (linesOf src).filter isKParamLine = paramLinesFrom 0 ctx.used_params ∧
      ((linesOf src).filter isKParamLine).length = ctx.used_params.length ∧
      (∀ i, i < ctx.used_params.length →
        ((linesOf src).filter isKParamLine).getD i [] =
          kparamLineChars i
            (dtypeOf (ctx.used_params.getD i (PgExpr.econst PGType.t_bool 0))).type_ident) ∧
      (linesOf src).filter isKVarLine = varLinesFrom 0 ctx.used_vars ∧
      ((linesOf src).filter isKVarLine).length = ctx.used_vars.length ∧
      (∀ i, i < ctx.used_vars.length →
        ((linesOf src).filter isKVarLine).getD i [] =
          kvarLineChars i (dtypeOf (ctx.used_vars.getD i (PgExpr.econst PGType.t_bool 0)))) ∧
      (linesOf src).filter isStaticLine = [arrLineSpec ctx.used_vars] ∧
      entryNamesOf (linesOf src) =
        ["gpuscan_qual_cs".data, "gpuscan_qual_rs_prep".data, "gpuscan_qual_rs".data] := by
  obtain ⟨ec, ctx, hexpr, hinv, hok⟩ := gpuscan_codegen_quals_success fcat dev_quals hne hav
  have hconj : pgstrom_codegen_conj fcat dev_quals emptyContext = some (ec, ctx) := hexpr
  have hnl : '\n' ∉ ec := codegen_conj_no_newline fcat hfc hconj
  have hlines : linesOf (lineJoin (fullLinesSpec ctx ec)) =
      fullLinesSpec ctx ec ++ [([] : List Char)] :=
    linesOf_lineJoin _ (fullLinesSpec_no_newline hinv hnl)
  refine ⟨ctx, lineJoin (fullLinesSpec ctx ec), hok, ?_, ?_, ?_, ?_, ?_, ?_, ?_, ?_⟩ <;>
    rw [hlines]
  · exact filter_kp_full ctx ec
  · rw [filter_kp_full ctx ec]
    exact paramLinesFrom_length _ 0
  · intro i hi
    rw [filter_kp_full ctx ec]
    have := paramLinesFrom_getD ctx.used_params 0 i hi
    simpa using this
  · exact filter_kv_full ctx ec
  · rw [filter_kv_full ctx ec]
    exact varLinesFrom_length _ 0
  · intro i hi
    rw [filter_kv_full ctx ec]
    have := varLinesFrom_getD ctx.used_vars 0 i hi
    simpa using this
  · exact filter_st_full ctx ec
  · exact entryNames_full ctx ec

/- Self-containedness of the generated source.  An identifier is referenced
   when it occurs as a maximal identifier-character token; the source
   declares the macro names KPARAM_i and KVAR_i, the constant array
   pg_used_vars, the three entry-point names and their parameter and local
   variable names. -/

def referencesIdent (src ident : List Char) : Prop :=
  ident ≠ [] ∧ (∀ c ∈ ident, isIdentCh c = true) ∧
  ∃ pre post, src = pre ++ ident ++ post ∧
    (pre = [] ∨ ∃ p c, pre = p ++ [c] ∧ isIdentCh c = false) ∧
    (post = [] ∨ ∃ c p, post = c :: p ∧ isIdentCh c = false)

def declaredIdents (ctx : codegen_context) : List (List Char) :=
  (List.range ctx.used_params.length).map (fun i => "KPARAM_".data ++ natToChars i) ++
  (List.range ctx.used_vars.length).map (fun i => "KVAR_".data ++ natToChars i) ++
  ["pg_used_vars".data, "gpuscan_qual_cs".data, "gpuscan_qual_rs_prep".data,
   "gpuscan_qual_rs".data, "gpuscan".data, "kparams".data, "kcs".data, "toast".data,
   "local_workmem".data, "krs".data, "rc".data, "errcode".data]

def selfContained (src : List Char) (ctx : codegen_context) : Prop :=
  ∀ ident, referencesIdent src ident → ident ∈ declaredIdents ctx

/- The fixed kernel tail splits around its first occurrence of the
   identifier used_vars, which sits between a parenthesis pair. -/

def gkPostA : List Char := ";\n  else\n    rc.isnull = CL_TRUE;\n  kern_set_error(!rc.isnull && rc.value != 0\n                 ? StromError_Success\n                 : StromError_RowFiltered);\n  gpuscan_writeback_result(gpuscan);\n\x7d\n\n__kernel void\ngpuscan_qual_rs_prep(__global kern_row_store *krs,\n                     __global kern_column_store *kcs)\n\x7b\n  kern_row_to_column_prep(krs,kcs,\n                          lengthof(".data

def gkPostAinit : List Char := ";\n  else\n    rc.isnull = CL_TRUE;\n  kern_set_error(!rc.isnull && rc.value != 0\n                 ? StromError_Success\n                 : StromError_RowFiltered);\n  gpuscan_writeback_result(gpuscan);\n\x7d\n\n__kernel void\ngpuscan_qual_rs_prep(__global kern_row_store *krs,\n                     __global kern_column_store *kcs)\n\x7b\n  kern_row_to_column_prep(krs,kcs,\n                          lengthof".data

def gkPostBtail : List Char := ",\n                          used_vars);\n\x7d\n\n__kernel void\ngpuscan_qual_rs(__global kern_gpuscan *gpuscan,\n                __global kern_parambuf *kparams,\n                __global kern_row_store *krs,\n                __global kern_column_store *kcs,\n                __local void *local_workmem)\n\x7b\n  kern_row_to_column(krs,kcs,\n                     lengthof(used_vars),\n                     used_vars,\n                     local_workmem);\n  gpuscan_qual_cs(gpuscan,kparams,kcs,\n                  (kern_toastbuf *)krs,\n                  local_workmem);\n\x7d\n".data

def gkPostB : List Char := "),\n                          used_vars);\n\x7d\n\n__kernel void\ngpuscan_qual_rs(__global kern_gpuscan *gpuscan,\n                __global kern_parambuf *kparams,\n                __global kern_row_store *krs,\n                __global kern_column_store *kcs,\n                __local void *local_workmem)\n\x7b\n  kern_row_to_column(krs,kcs,\n                     lengthof(used_vars),\n                     used_vars,\n                     local_workmem);\n  gpuscan_qual_cs(gpuscan,kparams,kcs,\n                  (kern_toastbuf *)krs,\n                  local_workmem);\n\x7d\n".data

set_option maxRecDepth 40000 in
theorem gkPost_split : gpuscanKernelsPost = gkPostA ++ "used_vars".data ++ gkPostB := by
  decide

set_option maxRecDepth 40000 in
theorem gkPostA_split : gkPostA = gkPostAinit ++ [Char.ofNat 40] := by decide

set_option maxRecDepth 40000 in
theorem gkPostB_cons : gkPostB = Char.ofNat 41 :: gkPostBtail := by decide

theorem kparam_name_ne_uv (i : Nat) :
    ("KPARAM_".data ++ natToChars i) ≠ "used_vars".data := by
  intro h
  have hh := congrArg List.head? h
  rw [show (("KPARAM_".data ++ natToChars i)).head? = some (Char.ofNat 75) from rfl] at hh
  exact absurd hh (by decide)

theorem kvar_name_ne_uv (i : Nat) :
    ("KVAR_".data ++ natToChars i) ≠ "used_vars".data := by
  intro h
  have hh := congrArg List.head? h
  rw [show (("KVAR_".data ++ natToChars i)).head? = some (Char.ofNat 75) from rfl] at hh
  exact absurd hh (by decide)

theorem used_vars_not_declared (ctx : codegen_context) :
    "used_vars".data ∉ declaredIdents ctx := by
  intro hmem
  rcases List.mem_append.mp hmem with hmem | hmem
  · rcases List.mem_append.mp hmem with hmem | hmem
    · obtain ⟨i, _, h⟩ := List.mem_map.mp hmem
      exact kparam_name_ne_uv i h
    · obtain ⟨i, _, h⟩ := List.mem_map.mp hmem
      exact kvar_name_ne_uv i h
  · exact absurd hmem (by decide)

theorem pg_used_vars_declared (ctx : codegen_context) :
    "pg_used_vars".data ∈ declaredIdents ctx :=
  List.mem_append.mpr (Or.inr (by decide))

theorem codegen_references_used_vars (fcat : Nat → Option (List Char))
    (dev_quals : List PgExpr) (hne : dev_quals ≠ [])
    (hav : ∀ q ∈ dev_quals, pgstrom_codegen_available_expression fcat q = true) :
    ∃ ctx src,
      gpuscan_codegen_quals fcat dev_quals = .ok (ctx, some src) ∧
      referencesIdent src "used_vars".data ∧
      "used_vars".data ∉ declaredIdents ctx ∧
      "pg_used_vars".data ∈ declaredIdents ctx := by
  obtain ⟨ec, ctx, _hexpr, _hinv, hok⟩ := gpuscan_codegen_quals_success fcat dev_quals hne hav
  refine ⟨ctx, _, hok, ⟨by decide, by decide, ?_⟩, used_vars_not_declared ctx,
    pg_used_vars_declared ctx⟩
  refine ⟨lineJoin (paramLinesFrom 0 ctx.used_params) ++
      lineJoin (varLinesFrom 0 ctx.used_vars) ++
      ('\n' :: (arrLineSpec ctx.used_vars ++ '\n' :: '\n' :: [])) ++
      gpuscanKernelsPre ++ ec ++ gkPostA, gkPostB, ?_, ?_, ?_⟩
  · rw [fullLinesSpec, lineJoin_append, lineJoin_append,
      show lineJoin ([] :: arrLineSpec ctx.used_vars :: [] :: kernelLines ec) =
        '\n' :: (arrLineSpec ctx.used_vars ++ '\n' :: '\n' :: lineJoin (kernelLines ec)) from
        by simp [lineJoin],
      ← gpuscanKernels_lineJoin, gpuscanKernels, gkPost_split]
    simp [List.append_assoc]
  · refine Or.inr ⟨lineJoin (paramLinesFrom 0 ctx.used_params) ++
      lineJoin (varLinesFrom 0 ctx.used_vars) ++
      ('\n' :: (arrLineSpec ctx.used_vars ++ '\n' :: '\n' :: [])) ++
      gpuscanKernelsPre ++ ec ++ gkPostAinit, Char.ofNat 40, ?_, by decide⟩
    rw [gkPostA_split]
    simp [List.append_assoc]
  · exact Or.inr ⟨Char.ofNat 41, gkPostBtail, gkPostB_cons, by decide⟩

/- A concrete operator catalog and qualifier for evaluation: operator 0 is
   a device-mapped int4 comparison, every other operator is unmapped; q0 is
   the conjunct (colA > 5) with colA of ordinal 2, qbad applies an unmapped
   operator. -/

def fcat0 : Nat → Option (List Char) := fun o => if o = 0 then some "int4gt".data else none

def q0 : PgExpr :=
  .efunc 0 .t_bool [.evar .t_int4 2, .econst .t_int4 5]

def qbad : PgExpr :=
  .efunc 99 .t_bool [.evar .t_int4 3]

theorem fcat0_ok : FcatOK fcat0 := by
  intro o s h c hc
  unfold fcat0 at h
  split at h
  · injection h with h2
    subst h2
    exact (by decide : ∀ c ∈ "int4gt".data, isIdentCh c = true) c hc
  · exact absurd h (by simp)

theorem q0_available : pgstrom_codegen_available_expression fcat0 q0 = true := by decide

/-- C3 witness: the symbol and entry-point guarantees instantiated at the
concrete device qualifier list [q0] under the concrete operator catalog. -/
theorem gpuscan_codegen_symbols_and_entrypoints_witness :
    ∃ ctx src,
      gpuscan_codegen_quals fcat0 [q0] = .ok (ctx, some src) ∧
      (linesOf src).filter isKParamLine = paramLinesFrom 0 ctx.used_params ∧
      ((linesOf src).filter isKParamLine).length = ctx.used_params.length ∧
      (∀ i, i < ctx.used_params.length →
        ((linesOf src).filter isKParamLine).getD i [] =
          kparamLineChars i
            (dtypeOf (ctx.used_params.getD i (PgExpr.econst PGType.t_bool 0))).type_ident) ∧
      (linesOf src).filter isKVarLine = varLinesFrom 0 ctx.used_vars ∧
      ((linesOf src).filter isKVarLine).length = ctx.used_vars.length ∧
      (∀ i, i < ctx.used_vars.length →
        ((linesOf src).filter isKVarLine).getD i [] =
          kvarLineChars i (dtypeOf (ctx.used_vars.getD i (PgExpr.econst PGType.t_bool 0)))) ∧
      (linesOf src).filter isStaticLine = [arrLineSpec ctx.used_vars] ∧
      entryNamesOf (linesOf src) =
        ["gpuscan_qual_cs".data, "gpuscan_qual_rs_prep".data, "gpuscan_qual_rs".data] :=
  gpuscan_codegen_symbols_and_entrypoints fcat0 [q0] fcat0_ok (by simp)
    (fun q hq => by
      rcases List.mem_cons.mp hq with rfl | hq
      · exact q0_available
      · simp at hq)

/-- C4 counterexample: at the concrete device qualifier list [q0] the
generated kernel source is not self-contained as the claim states it:
it references an identifier (used_vars) that is neither declared in the
generated text nor one of the declared buffer and parameter arguments of
the entry points. -/
theorem gpuscan_codegen_self_contained_counterexample :
    ∃ ctx src,
      gpuscan_codegen_quals fcat0 [q0] = .ok (ctx, some src) ∧
      ¬ selfContained src ctx := by
  obtain ⟨ctx, src, hok, href, hnot, _⟩ := codegen_references_used_vars fcat0 [q0]
    (by simp)
    (fun q hq => by
      rcases List.mem_cons.mp hq with rfl | hq
      · exact q0_available
      · simp at hq)
  exact ⟨ctx, src, hok, fun hsc => hnot (hsc _ href)⟩

/-- C4 (amended): for every non-empty, fully device-capable qualifier list
the generated source is not self-contained: the declared projected-column
array is named pg_used_vars, while the preparation and row-store qualifier
entry points reference the identifier used_vars, which is neither declared
in the generated text (macro names, array name, entry-point names) nor one
of the declared buffer, parameter or local names of the entry points. -/
theorem gpuscan_codegen_undeclared_used_vars (fcat : Nat → Option (List Char))
    (dev_quals : List PgExpr) (hne : dev_quals ≠ [])
    (hav : ∀ q ∈ dev_quals, pgstrom_codegen_available_expression fcat q = true) :
    ∃ ctx src,
      gpuscan_codegen_quals fcat dev_quals = .ok (ctx, some src) ∧
      referencesIdent src "used_vars".data ∧
      "used_vars".data ∉ declaredIdents ctx ∧
      "pg_used_vars".data ∈ declaredIdents ctx ∧
      ¬ selfContained src ctx := by
  obtain ⟨ctx, src, hok, href, hnot, hpg⟩ :=
    codegen_references_used_vars fcat dev_quals hne hav
  exact ⟨ctx, src, hok, href, hnot, hpg, fun hsc => hnot (hsc _ href)⟩

/-- C4 witness: the amended statement instantiated at the concrete device
qualifier list [q0] under the concrete operator catalog. -/
theorem gpuscan_codegen_undeclared_used_vars_witness :
    ∃ ctx src,
      gpuscan_codegen_quals fcat0 [q0] = .ok (ctx, some src) ∧
      referencesIdent src "used_vars".data ∧
      "used_vars".data ∉ declaredIdents ctx ∧
      "pg_used_vars".data ∈ declaredIdents ctx ∧
      ¬ selfContained src ctx :=
  gpuscan_codegen_undeclared_used_vars fcat0 [q0] (by simp)
    (fun q hq => by
      rcases List.mem_cons.mp hq with rfl | hq
      · exact q0_available
      · simp at hq)

/-- C5 witness: determinism instantiated at the concrete qualifier list. -/
theorem gpuscan_codegen_deterministic_witness :
    gpuscan_codegen_quals fcat0 [q0] = gpuscan_codegen_quals fcat0 [q0] ∧
    pgstrom_codegen_expression fcat0 [q0] = pgstrom_codegen_expression fcat0 [q0] :=
  gpuscan_codegen_deterministic fcat0 [q0] [q0] rfl

/-- C2 witness: routing instantiated at the concrete predicate list
[q0, qbad], where q0 is fully device-mapped and qbad applies an unmapped
operator: q0 goes to the device group with its column in dev_attrs, qbad
to the host group with its column in host_attrs. -/
theorem gpuscan_classify_capability_routing_witness :
    q0 ∈ (gpuscan_classify fcat0 [q0, qbad]).1 ∧
    pull_varattnos q0 ⊆ (gpuscan_classify fcat0 [q0, qbad]).2.2.1 ∧
    qbad ∈ (gpuscan_classify fcat0 [q0, qbad]).2.1 ∧
    pull_varattnos qbad ⊆ (gpuscan_classify fcat0 [q0, qbad]).2.2.2 := by
  have h1 := (gpuscan_classify_capability_routing fcat0 [q0, qbad] q0 (by simp)).1 (by decide)
  have h2 := (gpuscan_classify_capability_routing fcat0 [q0, qbad] qbad (by simp)).2 (by decide)
  exact ⟨h1.1, h1.2, h2.1, h2.2⟩

/- Scan strategies (gpuscan.c lines 59-62) and the strategy choice made in
   gpuscan_begin (line 613).  The residency input is ignored by the code:
   the columnar-cache check is an XXX stub (line 199), so the mode is
   always GpuScanMode_HeapOnlyScan. -/

def GpuScanMode_CacheOnlyScan : Nat := 0x0001

def GpuScanMode_HybridScan : Nat := 0x0002

def GpuScanMode_HeapOnlyScan : Nat := 0x0003

def GpuScanMode_CreateCache : Nat := 0x0004

structure ColumnResidency where
  qual_vars_cached : Bool
  tlist_vars_cached : Bool

def gpuscan_begin_scan_mode (_residency : ColumnResidency) : Nat :=
  GpuScanMode_HeapOnlyScan

/-- Modelled from the spec: the intended scan-strategy selection by
columnar-cache residency (spec section 4.5 and the strategy comment of
gpuscan.c lines 42-58): cache-only scan when all referenced variables are
on the columnar cache, hybrid scan when the qualifier variables are cached
but the target-list ones are not, heap-only scan otherwise. -/
def spec_scan_mode (r : ColumnResidency) : Nat :=
  if r.qual_vars_cached && r.tlist_vars_cached then GpuScanMode_CacheOnlyScan
  else if r.qual_vars_cached then GpuScanMode_HybridScan
  else GpuScanMode_HeapOnlyScan

/-- C6 (code bug): gpuscan_begin assigns scan_mode exactly once and never
revisits it, but the assignment is the constant GpuScanMode_HeapOnlyScan,
ignoring column residency entirely; on a scan whose qualifier and
target-list columns are all cache-resident the documented selection (the
strategy comment of gpuscan.c and spec section 4.5) requires the
cache-only mode, which the code never selects. -/
theorem gpuscan_scan_mode_ignores_residency :
    (∀ r : ColumnResidency, gpuscan_begin_scan_mode r = GpuScanMode_HeapOnlyScan) ∧
    spec_scan_mode ⟨true, true⟩ = GpuScanMode_CacheOnlyScan ∧
    gpuscan_begin_scan_mode ⟨true, true⟩ ≠ spec_scan_mode ⟨true, true⟩ :=
  ⟨fun _ => rfl, by decide, by decide⟩

/- Resource acquisition in gpuscan_begin (gpuscan.c lines 613-641): the
   shared memory context, then the message queue, then the parameter
   buffer.  On a failed acquisition the code raises ereport(ERROR ...)
   without releasing anything acquired so far; the resource tracking is
   marked "TODO: add resource tracking here". -/

inductive PgResource
  | shmcontext
  | mqueue
  | parambuf
deriving DecidableEq

structure BeginErrorInfo where
  acquired : List PgResource
  released : List PgResource
deriving DecidableEq

structure GpuScanStateInfo where
  scan_mode : Nat
  acquired : List PgResource
deriving DecidableEq

structure AcquireEnv where
  shmem_context_ok : Bool
  mqueue_ok : Bool

def gpuscan_begin_resources (env : AcquireEnv) : Except BeginErrorInfo GpuScanStateInfo :=
  if !env.shmem_context_ok then .error ⟨[], []⟩
  else if !env.mqueue_ok then .error ⟨[.shmcontext], []⟩
  else .ok ⟨GpuScanMode_HeapOnlyScan, [.shmcontext, .mqueue, .parambuf]⟩

def releasedExactlyOnce (e : BeginErrorInfo) : Prop :=
  ∀ r ∈ e.acquired, e.released.count r = 1

/-- C7 (code bug): when message-queue creation fails after the shared
memory context was created, gpuscan_begin surfaces the error having
released nothing: the shared memory context stays acquired and the
released list is empty, so the claimed release-exactly-once property
fails on this error path. -/
theorem gpuscan_begin_error_path_releases_nothing :
    gpuscan_begin_resources ⟨true, false⟩ =
      .error ⟨[PgResource.shmcontext], []⟩ ∧
    ¬ releasedExactlyOnce ⟨[PgResource.shmcontext], []⟩ := by
  refine ⟨rfl, fun hrel => ?_⟩
  have := hrel .shmcontext (by simp)
  simp at this

/- The unimplemented executor callbacks (gpuscan.c lines 656-670): both
   raise elog(ERROR, "not implemented yet") unconditionally. -/

structure GpuScanStateModel where
  scan_mode : Nat

def notImplementedMsg : List Char := "not implemented yet".data

def gpuscan_exec_multi (_node : GpuScanStateModel) : Except (List Char) Unit :=
  .error notImplementedMsg

def gpuscan_rescan (_node : GpuScanStateModel) : Except (List Char) Unit :=
  .error notImplementedMsg

/-- C8: on every scan state, the batched multi-row-group output operation
and the mid-scan restart operation raise the clear "not implemented yet"
error and never return a result. -/
theorem gpuscan_unimplemented_exec_multi_rescan :
    ∀ node : GpuScanStateModel,
      gpuscan_exec_multi node = .error notImplementedMsg ∧
      gpuscan_rescan node = .error notImplementedMsg ∧
      (∀ r, gpuscan_exec_multi node ≠ .ok r) ∧
      (∀ r, gpuscan_rescan node ≠ .ok r) :=
  fun _ =>
    ⟨rfl, rfl,
     fun _ hr => by simp [gpuscan_exec_multi] at hr,
     fun _ hr => by simp [gpuscan_rescan] at hr⟩

/- The cost model cost_gpuscan (gpuscan.c lines 80-156), over exact
   rational arithmetic.  The qualifier evaluation costs, the selectivity of
   the device qualifiers and the tablespace page cost are computed by
   external collaborators and enter as inputs; disable_cost mirrors the
   planner constant 1.0e10. -/

structure PgQualCost where
  startup : ℚ
  per_tuple : ℚ

def disable_cost : ℚ := 10000000000

def cost_gpuscan (enable_gpuscan : Bool) (pages tuples : ℚ) (spc_seq_page_cost : ℚ)
    (dev_cost0 host_cost0 : PgQualCost) (param_cost : Option PgQualCost)
    (dev_sel cpu_tuple_cost : ℚ) : ℚ × ℚ :=
  let startup0 : ℚ := if enable_gpuscan then 0 else disable_cost
  let run0 := spc_seq_page_cost * pages
  let dev_cost : PgQualCost := ⟨dev_cost0.startup + 10000, dev_cost0.per_tuple / 100⟩
  let host_cost : PgQualCost :=
    match param_cost with
    | some pc => ⟨host_cost0.startup + pc.startup, host_cost0.per_tuple + pc.per_tuple⟩
    | none => host_cost0
  let startup_cost := startup0 + dev_cost.startup + host_cost.startup
  let cpu_per_tuple := cpu_tuple_cost + host_cost.per_tuple
  let gpu_per_tuple := cpu_tuple_cost / 100 + dev_cost.per_tuple
  let run_cost := run0 + (gpu_per_tuple * tuples + cpu_per_tuple * dev_sel * tuples)
  (startup_cost, startup_cost + run_cost)

/-- C9: the cost estimator is monotonic in the estimated row count (with
every other input fixed and the per-tuple costs and selectivity
non-negative, a larger tuple count never decreases total_cost), and with
identical inputs, disabling the offload GUC yields a strictly greater
startup_cost than enabling it. -/
theorem cost_gpuscan_monotone_and_disable_penalty
    (enable : Bool) (pages t1 t2 spc : ℚ) (dev_cost0 host_cost0 : PgQualCost)
    (param_cost : Option PgQualCost) (dev_sel cpu_tuple_cost : ℚ)
    (hd : 0 ≤ dev_cost0.per_tuple) (hh : 0 ≤ host_cost0.per_tuple)
    (hp : ∀ pc, param_cost = some pc → 0 ≤ pc.per_tuple)
    (hs : 0 ≤ dev_sel) (hc : 0 ≤ cpu_tuple_cost) (ht : t1 ≤ t2) :
    (cost_gpuscan enable pages t1 spc dev_cost0 host_cost0 param_cost dev_sel
        cpu_tuple_cost).2 ≤
      (cost_gpuscan enable pages t2 spc dev_cost0 host_cost0 param_cost dev_sel
        cpu_tuple_cost).2 ∧
    (cost_gpuscan false pages t1 spc dev_cost0 host_cost0 param_cost dev_sel
        cpu_tuple_cost).1 >
      (cost_gpuscan true pages t1 spc dev_cost0 host_cost0 param_cost dev_sel
        cpu_tuple_cost).1 := by
  constructor
  · cases param_cost with
    | none =>
        simp only [cost_gpuscan]
        nlinarith [mul_nonneg (mul_nonneg (add_nonneg hc hh) hs) (sub_nonneg.mpr ht),
          mul_nonneg (add_nonneg (by positivity : (0:ℚ) ≤ cpu_tuple_cost / 100)
            (by positivity : (0:ℚ) ≤ dev_cost0.per_tuple / 100)) (sub_nonneg.mpr ht)]
    | some pc =>
        have hpc := hp pc rfl
        simp only [cost_gpuscan]
        nlinarith [mul_nonneg (mul_nonneg
            (add_nonneg hc (add_nonneg hh hpc)) hs) (sub_nonneg.mpr ht),
          mul_nonneg (add_nonneg (by positivity : (0:ℚ) ≤ cpu_tuple_cost / 100)
            (by positivity : (0:ℚ) ≤ dev_cost0.per_tuple / 100)) (sub_nonneg.mpr ht)]
  · cases param_cost <;>
      · have h0 : (0:ℚ) < disable_cost := by norm_num [disable_cost]
        simp [cost_gpuscan]
        linarith

/-- C9 witness: the monotonicity and disable-penalty conclusions at
concrete rational inputs. -/
theorem cost_gpuscan_monotone_and_disable_penalty_witness :
    (cost_gpuscan true 10 5 1 ⟨1, 2⟩ ⟨1, 3⟩ none (1/2) (1/100)).2 ≤
      (cost_gpuscan true 10 7 1 ⟨1, 2⟩ ⟨1, 3⟩ none (1/2) (1/100)).2 ∧
    (cost_gpuscan false 10 5 1 ⟨1, 2⟩ ⟨1, 3⟩ none (1/2) (1/100)).1 >
      (cost_gpuscan true 10 5 1 ⟨1, 2⟩ ⟨1, 3⟩ none (1/2) (1/100)).1 :=
  cost_gpuscan_monotone_and_disable_penalty true 10 5 7 1 ⟨1, 2⟩ ⟨1, 3⟩ none (1/2) (1/100)
    (by norm_num) (by norm_num) (fun pc hpc => by simp at hpc) (by norm_num) (by norm_num)
    (by norm_num)

/- The plan-copy routine gpuscan_copy_plan (gpuscan.c lines 720-735) over a
   small pointer heap.  palloc (without zero-initialization) yields a node
   whose fields hold arbitrary left-over values, modelled by the uninit
   argument; copyObject and bms_copy allocate a fresh cell holding the same
   content; plain field assignment copies the value (for pointer fields:
   the address, aliasing the object). -/

inductive PlanObj
  | exprList (l : List PgExpr)
  | attrSet (l : List Nat)
  | kernSrc (s : List Char)
deriving DecidableEq

structure Heap where
  store : Nat → Option PlanObj
  next : Nat

def copyObject (h : Heap) (p : Nat) : Heap × Nat :=
  (⟨fun a => if a = h.next then h.store p else h.store a, h.next + 1⟩, h.next)

def bms_copy (h : Heap) (p : Nat) : Heap × Nat := copyObject h p

structure GpuScanPlan where
  cplan_common : Nat
  scanrelid : Nat
  kern_source : Nat
  extra_flags : Int
  used_params : Nat
  used_vars : Nat
  dev_clauses : Nat
  dev_attrs : Nat
  host_attrs : Nat
deriving DecidableEq

def gpuscan_copy_plan (h : Heap) (from_node uninit : GpuScanPlan) : Heap × GpuScanPlan :=
  let newnode := { uninit with cplan_common := from_node.cplan_common }
  let newnode := { newnode with scanrelid := from_node.scanrelid }
  let r1 := copyObject h from_node.used_params
  let newnode := { newnode with used_params := r1.2 }
  let r2 := copyObject r1.1 from_node.used_vars
  let newnode := { newnode with used_vars := r2.2 }
  let newnode := { newnode with extra_flags := from_node.extra_flags }
  let newnode := { newnode with dev_clauses := from_node.dev_clauses }
  let r3 := bms_copy r2.1 from_node.dev_attrs
  let newnode := { newnode with dev_attrs := r3.2 }
  let r4 := bms_copy r3.1 from_node.host_attrs
  let newnode := { newnode with host_attrs := r4.2 }
  (r4.1, newnode)

/-- C10: the plan copy produces a node whose scanrelid, extra_flags and
common plan fields equal the originals, whose used_params, used_vars,
dev_attrs and host_attrs are deep copies (fresh addresses with equal
content), whose dev_clauses aliases the original list (same address, not a
copy), and whose kern_source is never assigned: it keeps whatever the
non-zeroing allocation left there. -/
theorem gpuscan_copy_plan_fields (h : Heap) (from_node uninit : GpuScanPlan)
    (hp : from_node.used_params < h.next) (hv : from_node.used_vars < h.next)
    (hd : from_node.dev_attrs < h.next) (hh2 : from_node.host_attrs < h.next) :
    (gpuscan_copy_plan h from_node uninit).2.cplan_common = from_node.cplan_common ∧
    (gpuscan_copy_plan h from_node uninit).2.scanrelid = from_node.scanrelid ∧
    (gpuscan_copy_plan h from_node uninit).2.extra_flags = from_node.extra_flags ∧
    (gpuscan_copy_plan h from_node uninit).2.dev_clauses = from_node.dev_clauses ∧
    (gpuscan_copy_plan h from_node uninit).2.kern_source = uninit.kern_source ∧
    (gpuscan_copy_plan h from_node uninit).2.used_params ≠ from_node.used_params ∧
    (gpuscan_copy_plan h from_node uninit).1.store
        (gpuscan_copy_plan h from_node uninit).2.used_params =
      h.store from_node.used_params ∧
    (gpuscan_copy_plan h from_node uninit).2.used_vars ≠ from_node.used_vars ∧
    (gpuscan_copy_plan h from_node uninit).1.store
        (gpuscan_copy_plan h from_node uninit).2.used_vars =
      h.store from_node.used_vars ∧
    (gpuscan_copy_plan h from_node uninit).2.dev_attrs ≠ from_node.dev_attrs ∧
    (gpuscan_copy_plan h from_node uninit).1.store
        (gpuscan_copy_plan h from_node uninit).2.dev_attrs =
      h.store from_node.dev_attrs ∧
    (gpuscan_copy_plan h from_node uninit).2.host_attrs ≠ from_node.host_attrs ∧
    (gpuscan_copy_plan h from_node uninit).1.store
        (gpuscan_copy_plan h from_node uninit).2.host_attrs =
      h.store from_node.host_attrs := by
  refine ⟨rfl, rfl, rfl, rfl, rfl, ?_, ?_, ?_, ?_, ?_, ?_, ?_, ?_⟩ <;>
    simp only [gpuscan_copy_plan, copyObject, bms_copy] <;>
    first
      | omega
      | (split_ifs <;> first | rfl | omega)

/- Concrete heap for the witness: four live objects at addresses 0-3,
   allocation pointer at 6. -/

def c10Heap : Heap :=
  ⟨fun a =>
    if a = 0 then some (.exprList [])
    else if a = 1 then some (.exprList [q0])
    else if a = 2 then some (.attrSet [2])
    else if a = 3 then some (.attrSet [3])
    else none, 6⟩

def c10From : GpuScanPlan := ⟨7, 1, 5, 42, 0, 1, 4, 2, 3⟩

def c10Uninit : GpuScanPlan := ⟨99, 98, 97, 96, 95, 94, 93, 92, 91⟩

/-- C10 witness: the copy-plan guarantees at a concrete heap and nodes. -/
theorem gpuscan_copy_plan_fields_witness :
    (gpuscan_copy_plan c10Heap c10From c10Uninit).2.cplan_common = c10From.cplan_common ∧
    (gpuscan_copy_plan c10Heap c10From c10Uninit).2.scanrelid = c10From.scanrelid ∧
    (gpuscan_copy_plan c10Heap c10From c10Uninit).2.extra_flags = c10From.extra_flags ∧
    (gpuscan_copy_plan c10Heap c10From c10Uninit).2.dev_clauses = c10From.dev_clauses ∧
    (gpuscan_copy_plan c10Heap c10From c10Uninit).2.kern_source = c10Uninit.kern_source ∧
    (gpuscan_copy_plan c10Heap c10From c10Uninit).2.used_params ≠ c10From.used_params ∧
    (gpuscan_copy_plan c10Heap c10From c10Uninit).1.store
        (gpuscan_copy_plan c10Heap c10From c10Uninit).2.used_params =
      c10Heap.store c10From.used_params ∧
    (gpuscan_copy_plan c10Heap c10From c10Uninit).2.used_vars ≠ c10From.used_vars ∧
    (gpuscan_copy_plan c10Heap c10From c10Uninit).1.store
        (gpuscan_copy_plan c10Heap c10From c10Uninit).2.used_vars =
      c10Heap.store c10From.used_vars ∧
    (gpuscan_copy_plan c10Heap c10From c10Uninit).2.dev_attrs ≠ c10From.dev_attrs ∧
    (gpuscan_copy_plan c10Heap c10From c10Uninit).1.store
        (gpuscan_copy_plan c10Heap c10From c10Uninit).2.dev_attrs =
      c10Heap.store c10From.dev_attrs ∧
    (gpuscan_copy_plan c10Heap c10From c10Uninit).2.host_attrs ≠ c10From.host_attrs ∧
    (gpuscan_copy_plan c10Heap c10From c10Uninit).1.store
        (gpuscan_copy_plan c10Heap c10From c10Uninit).2.host_attrs =
      c10Heap.store c10From.host_attrs :=
  gpuscan_copy_plan_fields c10Heap c10From c10Uninit (by norm_num [c10Heap, c10From])
    (by norm_num [c10Heap, c10From]) (by norm_num [c10Heap, c10From])
    (by norm_num [c10Heap, c10From])
